import Mathlib

/-!
# S3C64XX / S5P OneNAND driver (drivers/mtd/onenand/samsung.c)

A shallow embedding of the pseudo-BufferRAM emulation of the Samsung OneNAND
controller driver, and the properties of it that the specification relies on.

Conventions of the embedding.

* C integers are natural numbers; where the C code converts to a 32-bit type or
  computes in one, the value is reduced modulo `2 ^ 32` explicitly.  A signed
  `int` is represented by its 32-bit pattern.
* The two buffer regions `page_buf` and `oob_buf` are lists of bytes whose
  length is the size of the allocation.  An access that leaves the allocation
  is undefined in C; here it makes the operation return `none`.
* Memory-mapped I/O is recorded in a trace of events.  The value returned by a
  read is chosen by a device function of the history so far, so that every
  theorem holds for every behaviour of the hardware.
-/

namespace Samsung

/-! ## Address packing -/

/-- The SoC variant the driver is built for: `CONFIG_S3C64XX` or `CONFIG_S5P`. -/
inductive Soc where
  | S3C64XX
  | S5P
deriving DecidableEq, Repr

/-- Reduction of a C value to its 32-bit pattern. -/
def u32 (x : Nat) : Nat := x % 2 ^ 32

/-- The function `s3c_mem_addr(int fba, int fpa, int fsa)`, in its two build
variants.  The arguments are the bit patterns of the `int` parameters and the
result is the `unsigned int` that is returned. -/
def s3c_mem_addr : Soc → Nat → Nat → Nat → Nat
  | .S3C64XX, fba, fpa, fsa => u32 ((fba <<< 12) ||| (fpa <<< 6) ||| (fsa <<< 4))
  | .S5P, fba, fpa, fsa => u32 ((fba <<< 13) ||| (fpa <<< 7) ||| (fsa <<< 5))

/-- Window tag `MAP_00`. -/
def MAP_00 : Soc → Nat
  | .S3C64XX => 0x0 <<< 24
  | .S5P => 0x0 <<< 26

/-- Window tag `MAP_01`. -/
def MAP_01 : Soc → Nat
  | .S3C64XX => 0x1 <<< 24
  | .S5P => 0x1 <<< 26

/-- Window tag `MAP_10`. -/
def MAP_10 : Soc → Nat
  | .S3C64XX => 0x2 <<< 24
  | .S5P => 0x2 <<< 26

/-- Window tag `MAP_11`. -/
def MAP_11 : Soc → Nat
  | .S3C64XX => 0x3 <<< 24
  | .S5P => 0x3 <<< 26

/-- The macro `CMD_MAP_00(mem_addr)`: read/write of the XIP buffer. -/
def CMD_MAP_00 (soc : Soc) (mem_addr : Nat) : Nat := u32 (MAP_00 soc ||| (mem_addr <<< 1))

/-- The macro `CMD_MAP_01(mem_addr)`: read/write to the memory device. -/
def CMD_MAP_01 (soc : Soc) (mem_addr : Nat) : Nat := u32 (MAP_01 soc ||| mem_addr)

/-- The macro `CMD_MAP_10(mem_addr)`: control special functions of the device. -/
def CMD_MAP_10 (soc : Soc) (mem_addr : Nat) : Nat := u32 (MAP_10 soc ||| mem_addr)

/-- The macro `CMD_MAP_11(mem_addr)`: direct access to the memory device. -/
def CMD_MAP_11 (soc : Soc) (mem_addr : Nat) : Nat := u32 (MAP_11 soc ||| (mem_addr <<< 2))

/-- Bit position of the block field in the packed address (the shift applied to
`fba` in `s3c_mem_addr`), used to decompose a packed value. -/
def fbaShift : Soc → Nat
  | .S3C64XX => 12
  | .S5P => 13

/-- Bit position of the page field in the packed address (the shift applied to
`fpa` in `s3c_mem_addr`), used to decompose a packed value. -/
def fpaShift : Soc → Nat
  | .S3C64XX => 6
  | .S5P => 7

/-! ## Constants of headers outside the sources -/

/-- The constants, enumeration values and error numbers that samsung.c takes
from headers which are not among the sources under study
(`linux/mtd/onenand_regs.h`, `linux/mtd/onenand.h`, `linux/mtd/samsung_onenand.h`,
`asm/errno.h`).  They are a parameter of the embedding: no theorem depends on
their values beyond the hypotheses it states. -/
structure Hdr where
  ONENAND_CMD_READ : Nat
  ONENAND_CMD_READOOB : Nat
  ONENAND_CMD_PROG : Nat
  ONENAND_CMD_PROGOOB : Nat
  ONENAND_CMD_UNLOCK : Nat
  ONENAND_CMD_LOCK : Nat
  ONENAND_CMD_UNLOCK_ALL : Nat
  ONENAND_CMD_ERASE : Nat
  ONENAND_CMD_MULTIBLOCK_ERASE : Nat
  ONENAND_CMD_ERASE_VERIFY : Nat
  ONENAND_CMD_BUFFERRAM : Nat
  ONENAND_DATARAM : Nat
  ONENAND_ECC_4BIT_UNCORRECTABLE : Nat
  ONENAND_HAS_UNLOCK_ALL : Nat
  ONENAND_DEVICE_IS_DDP : Nat
  ONENAND_BBT_READ_ERROR : Nat
  ONENAND_MEM_RESET_COLD : Nat
  RST_CMP : Nat
  INT_ACT : Nat
  LOCKED_BLK : Nat
  BLK_RW_CMP : Nat
  ERS_CMP : Nat
  PGM_CMP : Nat
  LOAD_CMP : Nat
  ERS_FAIL : Nat
  PGM_FAIL : Nat
  LD_FAIL_ECC_ERR : Nat
  TSRF : Nat
  FL_READING : Nat
  FL_WRITING : Nat
  FL_ERASING : Nat
  FL_LOCKING : Nat
  EBADMSG : Nat
  EIO : Nat

/-- The values of the constants in the U-Boot headers, used to evaluate the
driver on concrete inputs. -/
def uboot : Hdr where
  ONENAND_CMD_READ := 0x00
  ONENAND_CMD_READOOB := 0x13
  ONENAND_CMD_PROG := 0x80
  ONENAND_CMD_PROGOOB := 0x1A
  ONENAND_CMD_UNLOCK := 0x23
  ONENAND_CMD_LOCK := 0x2A
  ONENAND_CMD_UNLOCK_ALL := 0x27
  ONENAND_CMD_ERASE := 0x94
  ONENAND_CMD_MULTIBLOCK_ERASE := 0x95
  ONENAND_CMD_ERASE_VERIFY := 0x71
  ONENAND_CMD_BUFFERRAM := 0x1978
  ONENAND_DATARAM := 0x0200
  ONENAND_ECC_4BIT_UNCORRECTABLE := 0x1010
  ONENAND_HAS_UNLOCK_ALL := 0x0002
  ONENAND_DEVICE_IS_DDP := 0x0008
  ONENAND_BBT_READ_ERROR := 1
  ONENAND_MEM_RESET_COLD := 0x2
  RST_CMP := 1 <<< 12
  INT_ACT := 1 <<< 10
  LOCKED_BLK := 1 <<< 8
  BLK_RW_CMP := 1 <<< 7
  ERS_CMP := 1 <<< 6
  PGM_CMP := 1 <<< 5
  LOAD_CMP := 1 <<< 4
  ERS_FAIL := 1 <<< 3
  PGM_FAIL := 1 <<< 2
  LD_FAIL_ECC_ERR := 1 <<< 0
  TSRF := 1 <<< 0
  FL_READING := 1
  FL_WRITING := 2
  FL_ERASING := 3
  FL_LOCKING := 5
  EBADMSG := 74
  EIO := 5

/-- The command codes that `s3c_onenand_command` switches on are pairwise
different, so that each code selects its own case. -/
def Hdr.cmdsDistinct (k : Hdr) : Prop :=
  [k.ONENAND_CMD_READ, k.ONENAND_CMD_READOOB, k.ONENAND_CMD_BUFFERRAM, k.ONENAND_CMD_PROG,
    k.ONENAND_CMD_PROGOOB, k.ONENAND_CMD_UNLOCK_ALL, k.ONENAND_CMD_ERASE,
    k.ONENAND_CMD_MULTIBLOCK_ERASE, k.ONENAND_CMD_ERASE_VERIFY].Nodup

/-- Control word `ONENAND_ERASE_STATUS`. -/
def ONENAND_ERASE_STATUS : Nat := 0x00
/-- Control word `ONENAND_MULTI_ERASE_SET`. -/
def ONENAND_MULTI_ERASE_SET : Nat := 0x01
/-- Control word `ONENAND_ERASE_START`. -/
def ONENAND_ERASE_START : Nat := 0x03
/-- Control word `ONENAND_UNLOCK_START`. -/
def ONENAND_UNLOCK_START : Nat := 0x08
/-- Control word `ONENAND_UNLOCK_END`. -/
def ONENAND_UNLOCK_END : Nat := 0x09
/-- Control word `ONENAND_LOCK_START`. -/
def ONENAND_LOCK_START : Nat := 0x0A
/-- Control word `ONENAND_LOCK_END`. -/
def ONENAND_LOCK_END : Nat := 0x0B
/-- Control word `ONENAND_UNLOCK_ALL`. -/
def ONENAND_UNLOCK_ALL : Nat := 0x0E
/-- Control word `ONENAND_ERASE_VERIFY`. -/
def ONENAND_ERASE_VERIFY : Nat := 0x15

/-! ## Memory-mapped I/O -/

/-- The members of `struct samsung_onenand` (the register block `onenand->reg`)
that the driver accesses. -/
inductive Reg where
  | mem_cfg
  | mem_reset
  | int_err_stat
  | int_err_ack
  | ecc_err_stat
  | manufact_id
  | device_id
  | data_buf_size
  | flash_ver_id
  | tech
  | trans_spare
deriving DecidableEq, Repr

/-- A location of the controller: a register `&onenand->reg->r`, or the
address `onenand->ahb_addr + cmd` of the command-mapped region. -/
inductive Port where
  | reg (r : Reg)
  | ahb (cmd : Nat)
deriving DecidableEq, Repr

/-- One access to the controller: a read that returned `v`, or a write of `v`. -/
inductive Event where
  | rd (p : Port) (v : Nat)
  | wr (p : Port) (v : Nat)
deriving DecidableEq, Repr

/-- The hardware and the timer, as the driver sees them.  `dev` gives the value
the controller returns to a read of a location after a given history of accesses.
`polls` gives, for a wait entered after a given history, how many times the
deadline test `get_timer(start) < timeout` succeeds before the 20 ms are over;
the timer driver behind `get_timer` is a collaborator whose own register
accesses are not recorded. -/
structure Hw where
  dev : List Event → Port → Nat
  polls : List Event → Nat

/-! ## Driver state -/

/-- A byte of buffer memory. -/
abbrev Byte := Fin 256

/-- The fields of `struct onenand_chip` (`this`) the driver uses. -/
structure onenand_chip where
  bufferram_index : Nat
  writesize : Nat
  erase_shift : Nat
  page_shift : Nat
  page_mask : Nat
  chipsize : Nat
  options : Nat
  device_id : Nat
  subpagesize : Nat
deriving DecidableEq, Repr

/-- The fields of `struct mtd_info` (`mtd`) the driver uses; `ecc_stats_failed`
is `mtd->ecc_stats.failed`, a 32-bit counter. -/
structure mtd_info where
  writesize : Nat
  oobsize : Nat
  subpage_sft : Nat
  ecc_stats_failed : Nat
deriving DecidableEq, Repr

/-- The state the driver works on: the two buffer regions of the controller
handle `struct s3c_onenand`, its boot-mode flag, the chip and mtd descriptors,
and the accesses made to the controller so far (oldest first). -/
structure State where
  page_buf : List Byte
  oob_buf : List Byte
  bootram_command : Nat
  chip : onenand_chip
  mtd : mtd_info
  trace : List Event
deriving DecidableEq, Repr

/-- The buffer a pointer of the driver points into. -/
inductive Region where
  | page_buf
  | oob_buf
deriving DecidableEq, Repr

/-- The contents of a buffer region. -/
def Region.get (s : State) : Region → List Byte
  | .page_buf => s.page_buf
  | .oob_buf => s.oob_buf

/-- Replacement of the contents of a buffer region. -/
def Region.set (s : State) (mem : List Byte) : Region → State
  | .page_buf => { s with page_buf := mem }
  | .oob_buf => { s with oob_buf := mem }

/-- Reading `n` bytes at byte position `pos` of an allocation: defined when the
range lies inside the allocation. -/
def load (mem : List Byte) (pos n : Nat) : Option (List Byte) :=
  if pos + n ≤ mem.length then some ((mem.drop pos).take n) else none

/-- Writing the bytes `src` at byte position `pos` of an allocation: defined
when the range lies inside the allocation. -/
def store (mem : List Byte) (pos : Nat) (src : List Byte) : Option (List Byte) :=
  if pos + src.length ≤ mem.length then
    some (mem.take pos ++ src ++ mem.drop (pos + src.length))
  else none

/-- The four bytes of a 32-bit word in memory, least significant first (the
controllers are little-endian ARM cores). -/
def wordBytes (w : Nat) : List Byte :=
  [Fin.ofNat w, Fin.ofNat (w >>> 8), Fin.ofNat (w >>> 16), Fin.ofNat (w >>> 24)]

/-- The 32-bit word held by four bytes of memory, least significant first. -/
def bytesWord (bs : List Byte) : Nat :=
  bs.foldr (fun b acc => b.val + 256 * acc) 0

/-- The function `readl` on a location of the controller. -/
def readl (hw : Hw) (p : Port) (s : State) : Nat × State :=
  let v := u32 (hw.dev s.trace p)
  (v, { s with trace := s.trace ++ [Event.rd p v] })

/-- The function `writel` on a location of the controller. -/
def writel (v : Nat) (p : Port) (s : State) : State :=
  { s with trace := s.trace ++ [Event.wr p (u32 v)] }

/-- The function `s3c_read_cmd`: `readl(onenand->ahb_addr + cmd)`. -/
def s3c_read_cmd (hw : Hw) (cmd : Nat) (s : State) : Nat × State :=
  readl hw (Port.ahb cmd) s

/-- The function `s3c_write_cmd`: `writel(value, onenand->ahb_addr + cmd)`. -/
def s3c_write_cmd (value cmd : Nat) (s : State) : State :=
  writel value (Port.ahb cmd) s

/-- Modelled from the spec: the macro `ONENAND_CURRENT_BUFFERRAM(this)` of
`linux/mtd/onenand.h`, which is not among the sources; the spec describes it as
the index of the half that is current, kept in the chip state. -/
def ONENAND_CURRENT_BUFFERRAM (c : onenand_chip) : Nat := c.bufferram_index

/-- Modelled from the spec: the macro `ONENAND_SET_NEXT_BUFFERRAM(this)` of
`linux/mtd/onenand.h`, which is not among the sources; the spec describes the
index as alternating between the two halves, so the macro flips its lowest bit. -/
def ONENAND_SET_NEXT_BUFFERRAM (c : onenand_chip) : onenand_chip :=
  { c with bufferram_index := c.bufferram_index ^^^ 1 }

/-- Modelled from the spec: the macro `ONENAND_IS_DDP(this)` of
`linux/mtd/onenand.h`, which is not among the sources; the spec describes it as
a capability bit for dual-die geometry, tested in the device id. -/
def ONENAND_IS_DDP (k : Hdr) (c : onenand_chip) : Bool :=
  c.device_id &&& k.ONENAND_DEVICE_IS_DDP != 0

/-! ## The driver -/

/-- The polling loop `while (timeout--) { stat = readl(int_err_stat); if (stat &
RST_CMP) break; }` of `s3c_onenand_reset`, for the remaining iteration count. -/
def s3c_onenand_reset_loop (k : Hdr) (hw : Hw) : Nat → State → State
  | 0, s => s
  | timeout + 1, s =>
    let r := readl hw (.reg .int_err_stat) s
    if r.1 &&& k.RST_CMP ≠ 0 then r.2 else s3c_onenand_reset_loop k hw timeout r.2

/-- The function `s3c_onenand_reset`. -/
def s3c_onenand_reset (k : Hdr) (hw : Hw) (s : State) : State :=
  let s := writel k.ONENAND_MEM_RESET_COLD (.reg .mem_reset) s
  let s := s3c_onenand_reset_loop k hw 0x10000 s
  let r := readl hw (.reg .int_err_stat) s
  let s := writel r.1 (.reg .int_err_ack) r.2
  let s := writel 0x0 (.reg .int_err_ack) s
  writel 0x0 (.reg .ecc_err_stat) s

/-- The flag set that `s3c_onenand_wait` polls for, chosen by the awaited state
(the first `switch` of the function). -/
def s3c_onenand_wait_flags (k : Hdr) (state : Nat) : Nat :=
  if state = k.FL_READING then k.INT_ACT ||| (k.BLK_RW_CMP ||| k.LOAD_CMP)
  else if state = k.FL_WRITING then k.INT_ACT ||| (k.BLK_RW_CMP ||| k.PGM_CMP)
  else if state = k.FL_ERASING then k.INT_ACT ||| (k.BLK_RW_CMP ||| k.ERS_CMP)
  else if state = k.FL_LOCKING then k.INT_ACT ||| k.BLK_RW_CMP
  else k.INT_ACT

/-- The polling loop `while (get_timer(start) < timeout) { stat =
readl(int_err_stat); if (stat & flags) break; }` of the two wait functions, for
the number of deadline tests that are still going to succeed. -/
def poll (hw : Hw) (flags : Nat) : Nat → State → State
  | 0, s => s
  | n + 1, s =>
    let r := readl hw (.reg .int_err_stat) s
    if r.1 &&& flags ≠ 0 then r.2 else poll hw flags n r.2

/-- The function `s3c_onenand_wait`: the result and the state it leaves. -/
def s3c_onenand_wait (k : Hdr) (hw : Hw) (state : Nat) (s : State) : Int × State :=
  let flags := s3c_onenand_wait_flags k state
  let s := poll hw flags (hw.polls s.trace) s
  let r := readl hw (.reg .int_err_stat) s
  let stat := r.1
  let s := writel stat (.reg .int_err_ack) r.2
  if stat &&& k.LOAD_CMP ≠ 0 then
    let e := readl hw (.reg .ecc_err_stat) s
    if e.1 &&& k.ONENAND_ECC_4BIT_UNCORRECTABLE ≠ 0 then
      (-( k.EBADMSG : Int),
        { e.2 with mtd := { e.2.mtd with ecc_stats_failed := u32 (e.2.mtd.ecc_stats_failed + 1) } })
    else if stat &&& (k.LOCKED_BLK ||| k.ERS_FAIL ||| k.PGM_FAIL ||| k.LD_FAIL_ECC_ERR) ≠ 0 then
      (-( k.EIO : Int), e.2)
    else (0, e.2)
  else if stat &&& (k.LOCKED_BLK ||| k.ERS_FAIL ||| k.PGM_FAIL ||| k.LD_FAIL_ECC_ERR) ≠ 0 then
    (-( k.EIO : Int), s)
  else (0, s)

/-- The function `s3c_onenand_read` (the C loop variant): `count` words are read
from `ahb_addr + addr` and stored at the word pointer `buf`, here the byte
position `pos` of the region `r`. -/
def s3c_onenand_read (hw : Hw) (addr : Nat) (r : Region) : Nat → Nat → State → Option State
  | 0, _, s => some s
  | count + 1, pos, s =>
    let w := s3c_read_cmd hw addr s
    match store (r.get w.2) pos (wordBytes w.1) with
    | none => none
    | some mem => s3c_onenand_read hw addr r count (pos + 4) (r.set w.2 mem)

/-- The function `s3c_onenand_write` (the C loop variant): `count` words are
taken from the word pointer `buf`, here the byte position `pos` of the region
`r`, and written to `ahb_addr + addr`. -/
def s3c_onenand_write (addr : Nat) (r : Region) : Nat → Nat → State → Option State
  | 0, _, s => some s
  | count + 1, pos, s =>
    match load (r.get s) pos 4 with
    | none => none
    | some bs => s3c_onenand_write addr r count (pos + 4) (s3c_write_cmd (bytesWord bs) addr s)

/-- The function `s3c_onenand_dummy_write` (the C loop variant): `count` writes
of `0xffffffff` to `ahb_addr + addr`. -/
def s3c_onenand_dummy_write (addr : Nat) : Nat → State → State
  | 0, s => s
  | count + 1, s => s3c_onenand_dummy_write addr count (s3c_write_cmd 0xffffffff addr s)

/-- The function `s3c_onenand_command`: the result and the state it leaves, or
`none` when a transfer leaves a buffer allocation.  `addr` is the byte offset
into the flash and `len` is not used by the function. -/
def s3c_onenand_command (k : Hdr) (soc : Soc) (hw : Hw) (cmd addr len : Nat) (s : State) :
    Option (Int × State) :=
  let fba := u32 (addr >>> s.chip.erase_shift)
  let fpa := u32 (addr >>> s.chip.page_shift)
  let fpa := fpa &&& s.chip.page_mask
  let fsa := 0
  let mem_addr := s3c_mem_addr soc fba fpa fsa
  let cmd_map_01 := CMD_MAP_01 soc mem_addr
  let s :=
    if cmd = k.ONENAND_CMD_READ ∨ cmd = k.ONENAND_CMD_READOOB ∨ cmd = k.ONENAND_CMD_BUFFERRAM then
      { s with chip := ONENAND_SET_NEXT_BUFFERRAM s.chip }
    else s
  let index := ONENAND_CURRENT_BUFFERRAM s.chip
  let m := if index ≠ 0 then 4 * (s.chip.writesize >>> 2) else 0
  let sp := if index ≠ 0 then 4 * (s.mtd.oobsize >>> 2) else 0
  let mcount := s.mtd.writesize >>> 2
  let scount := s.mtd.oobsize >>> 2
  if cmd = k.ONENAND_CMD_READ then
    (s3c_onenand_read hw cmd_map_01 .page_buf mcount m s).map (fun s => (0, s))
  else if cmd = k.ONENAND_CMD_READOOB then
    let s := writel k.TSRF (.reg .trans_spare) s
    match s3c_onenand_read hw cmd_map_01 .page_buf mcount m s with
    | none => none
    | some s =>
      match s3c_onenand_read hw cmd_map_01 .oob_buf scount sp s with
      | none => none
      | some s => some (0, writel 0 (.reg .trans_spare) s)
  else if cmd = k.ONENAND_CMD_PROG then
    (s3c_onenand_write cmd_map_01 .page_buf mcount m s).map (fun s => (0, s))
  else if cmd = k.ONENAND_CMD_PROGOOB then
    let s := writel k.TSRF (.reg .trans_spare) s
    let s := s3c_onenand_dummy_write cmd_map_01 mcount s
    match s3c_onenand_write cmd_map_01 .oob_buf scount sp s with
    | none => none
    | some s => some (0, writel 0 (.reg .trans_spare) s)
  else if cmd = k.ONENAND_CMD_UNLOCK_ALL then
    some (0, s3c_write_cmd ONENAND_UNLOCK_ALL (CMD_MAP_10 soc mem_addr) s)
  else if cmd = k.ONENAND_CMD_ERASE then
    some (0, s3c_write_cmd ONENAND_ERASE_START (CMD_MAP_10 soc mem_addr) s)
  else if cmd = k.ONENAND_CMD_MULTIBLOCK_ERASE then
    some (0, s3c_write_cmd ONENAND_MULTI_ERASE_SET (CMD_MAP_10 soc mem_addr) s)
  else if cmd = k.ONENAND_CMD_ERASE_VERIFY then
    some (0, s3c_write_cmd ONENAND_ERASE_VERIFY (CMD_MAP_10 soc mem_addr) s)
  else some (0, s)

/-- The function `s3c_get_bufferram`: the pointer it returns, as a region and a
byte position in it. -/
def s3c_get_bufferram (k : Hdr) (s : State) (area : Nat) : Region × Nat :=
  let index := ONENAND_CURRENT_BUFFERRAM s.chip
  if area = k.ONENAND_DATARAM then
    (.page_buf, if index = 1 then s.chip.writesize else 0)
  else
    (.oob_buf, if index = 1 then s.mtd.oobsize else 0)

/-- The function `onenand_read_bufferram`: the `count` bytes copied to `buffer`
and the result, or `none` when `memcpy` reads outside the allocation. -/
def onenand_read_bufferram (k : Hdr) (s : State) (area : Nat) (offset : Int) (count : Nat) :
    Option (List Byte × Int) :=
  let p := s3c_get_bufferram k s area
  let pos : Int := (p.2 : Int) + offset
  if pos < 0 then none
  else (load (p.1.get s) pos.toNat count).map (fun bs => (bs, 0))

/-- The function `onenand_write_bufferram`: the state after the first `count`
bytes of `buffer` are copied and the result, or `none` when `memcpy` reads past
`buffer` or writes outside the allocation. -/
def onenand_write_bufferram (k : Hdr) (s : State) (area : Nat) (buffer : List Byte)
    (offset : Int) (count : Nat) : Option (State × Int) :=
  let p := s3c_get_bufferram k s area
  let pos : Int := (p.2 : Int) + offset
  if pos < 0 ∨ buffer.length < count then none
  else (store (p.1.get s) pos.toNat (buffer.take count)).map (fun mem => (p.1.set s mem, 0))

/-- The function `s3c_onenand_bbt_wait`: the result and the state it leaves.
The awaited `state` is a parameter that the function does not use. -/
def s3c_onenand_bbt_wait (k : Hdr) (hw : Hw) (state : Nat) (s : State) : Int × State :=
  let flags := k.INT_ACT ||| k.LOAD_CMP
  let s := poll hw flags (hw.polls s.trace) s
  let r := readl hw (.reg .int_err_stat) s
  let stat := r.1
  let s := writel stat (.reg .int_err_ack) r.2
  if stat &&& k.LD_FAIL_ECC_ERR ≠ 0 then
    (k.ONENAND_BBT_READ_ERROR, s3c_onenand_reset k hw s)
  else if stat &&& k.LOAD_CMP ≠ 0 then
    let e := readl hw (.reg .ecc_err_stat) s
    if e.1 &&& k.ONENAND_ECC_4BIT_UNCORRECTABLE ≠ 0 then
      (k.ONENAND_BBT_READ_ERROR, s3c_onenand_reset k hw e.2)
    else (0, e.2)
  else (0, s)

/-- The body of the loop of `s3c_onenand_check_lock_status` for one block. -/
def s3c_onenand_check_lock_status_block (k : Hdr) (soc : Soc) (hw : Hw) (s : State)
    (block : Nat) : State :=
  let s := (s3c_read_cmd hw (CMD_MAP_01 soc (s3c_mem_addr soc (u32 block) 0 0)) s).2
  let r := readl hw (.reg .int_err_stat) s
  if r.1 &&& k.LOCKED_BLK ≠ 0 then writel k.LOCKED_BLK (.reg .int_err_ack) r.2 else r.2

/-- The function `s3c_onenand_check_lock_status`: the loop `for (block = 0;
block < end; block++)` with `end = chipsize >> erase_shift`. -/
def s3c_onenand_check_lock_status (k : Hdr) (soc : Soc) (hw : Hw) (s : State) : State :=
  let end_ := s.chip.chipsize >>> s.chip.erase_shift
  (List.range end_).foldl (s3c_onenand_check_lock_status_block k soc hw) s

/-- The function `s3c_onenand_do_lock_cmd`; `start` and `end` are `int`, and
`start + (len >> erase_shift) - 1` is computed in 32-bit arithmetic. -/
def s3c_onenand_do_lock_cmd (k : Hdr) (soc : Soc) (hw : Hw) (ofs len cmd : Nat) (s : State) :
    State :=
  let start := u32 (ofs >>> s.chip.erase_shift)
  let start_mem_addr := s3c_mem_addr soc start 0 0
  let end_ := u32 (start + (len >>> s.chip.erase_shift) + (2 ^ 32 - 1))
  let end_mem_addr := s3c_mem_addr soc end_ 0 0
  let s :=
    if cmd = k.ONENAND_CMD_LOCK then
      let s := s3c_write_cmd ONENAND_LOCK_START (CMD_MAP_10 soc start_mem_addr) s
      s3c_write_cmd ONENAND_LOCK_END (CMD_MAP_10 soc end_mem_addr) s
    else
      let s := s3c_write_cmd ONENAND_UNLOCK_START (CMD_MAP_10 soc start_mem_addr) s
      s3c_write_cmd ONENAND_UNLOCK_END (CMD_MAP_10 soc end_mem_addr) s
  (s3c_onenand_wait k hw k.FL_LOCKING s).2

/-- The function `s3c_onenand_unlock_all`, with `this->command` and
`this->wait` bound to `s3c_onenand_command` and `s3c_onenand_wait` as
`s3c_onenand_init` binds them. -/
def s3c_onenand_unlock_all (k : Hdr) (soc : Soc) (hw : Hw) (s : State) : Option State :=
  let len := s.chip.chipsize
  let s := { s with chip := { s.chip with subpagesize := s.mtd.writesize } }
  let s := { s with mtd := { s.mtd with subpage_sft := 0 } }
  if s.chip.options &&& k.ONENAND_HAS_UNLOCK_ALL ≠ 0 then
    match s3c_onenand_command k soc hw k.ONENAND_CMD_UNLOCK_ALL 0 0 s with
    | none => none
    | some c =>
      let s := (s3c_onenand_wait k hw k.FL_LOCKING c.2).2
      if ¬ ONENAND_IS_DDP k s.chip then
        some (s3c_onenand_check_lock_status k soc hw s)
      else
        let ofs := s.chip.chipsize >>> 1
        let len := s.chip.chipsize >>> 1
        let s := s3c_onenand_do_lock_cmd k soc hw ofs len k.ONENAND_CMD_UNLOCK s
        some (s3c_onenand_check_lock_status k soc hw s)
  else
    let s := s3c_onenand_do_lock_cmd k soc hw 0 len k.ONENAND_CMD_UNLOCK s
    some (s3c_onenand_check_lock_status k soc hw s)

/-- The state that `s3c_onenand_init` sets up when its allocations succeed:
`page_buf` of 4 KiB and `oob_buf` of 128 bytes, every byte `0xff`; the chip and
mtd descriptors are those handed in by the generic layer.  The function does not
assign `bootram_command`, so the value found in the fresh allocation is a
parameter. -/
def s3c_onenand_init (chip : onenand_chip) (mtd : mtd_info) (bootram_command : Nat) : State where
  page_buf := List.replicate (4 <<< 10) 0xff
  oob_buf := List.replicate 128 0xff
  bootram_command := bootram_command
  chip := chip
  mtd := mtd
  trace := []

/-! ## Notions used to state the properties -/

/-- The size of one half of the buffer that `area` selects: `this->writesize`
for the main-data area, `mtd->oobsize` for the spare area. -/
def halfSize (k : Hdr) (s : State) (area : Nat) : Nat :=
  if area = k.ONENAND_DATARAM then s.chip.writesize else s.mtd.oobsize

/-- Descriptor of a chip with 2 KiB pages and 128 KiB blocks, with the given
current buffer half. -/
def chip2k (index : Nat) : onenand_chip where
  bufferram_index := index
  writesize := 2048
  erase_shift := 17
  page_shift := 11
  page_mask := 63
  chipsize := 0x8000000
  options := 0
  device_id := 0
  subpagesize := 2048

/-- The mtd descriptor of a chip with 2 KiB pages: 64 spare bytes per page. -/
def mtd2k : mtd_info where
  writesize := 2048
  oobsize := 64
  subpage_sft := 0
  ecc_stats_failed := 0

/-- Descriptor of a chip with 4 KiB pages and 256 KiB blocks, with the given
current buffer half. -/
def chip4k (index : Nat) : onenand_chip where
  bufferram_index := index
  writesize := 4096
  erase_shift := 18
  page_shift := 12
  page_mask := 63
  chipsize := 0x20000000
  options := 0
  device_id := 0
  subpagesize := 4096

/-- The mtd descriptor of a chip with 4 KiB pages: 128 spare bytes per page. -/
def mtd4k : mtd_info where
  writesize := 4096
  oobsize := 128
  subpage_sft := 0
  ecc_stats_failed := 0

/-- The status value that `s3c_onenand_wait` re-reads from `int_err_stat` after
its polling loop. -/
def waitStat (k : Hdr) (hw : Hw) (state : Nat) (s : State) : Nat :=
  u32 (hw.dev (poll hw (s3c_onenand_wait_flags k state) (hw.polls s.trace) s).trace
    (.reg .int_err_stat))

/-- The accesses made once `s3c_onenand_wait` has acknowledged the status: those
of the polling loop, the re-read of `int_err_stat` and the write of the value
read to `int_err_ack`. -/
def waitAcked (k : Hdr) (hw : Hw) (state : Nat) (s : State) : List Event :=
  (poll hw (s3c_onenand_wait_flags k state) (hw.polls s.trace) s).trace ++
    [Event.rd (.reg .int_err_stat) (waitStat k hw state s),
      Event.wr (.reg .int_err_ack) (waitStat k hw state s)]

/-- The value the ECC status register `ecc_err_stat` holds for a read made right
after the acknowledge. -/
def waitEcc (k : Hdr) (hw : Hw) (state : Nat) (s : State) : Nat :=
  u32 (hw.dev (waitAcked k hw state s) (.reg .ecc_err_stat))

/-- A controller whose status register always reads `stat` and whose ECC status
register always reads `ecc`, every other location reading 0, with three polls
before the deadline. -/
def hwConst (stat ecc : Nat) : Hw where
  dev := fun _ p =>
    match p with
    | .reg .int_err_stat => stat
    | .reg .ecc_err_stat => ecc
    | _ => 0
  polls := fun _ => 3

/-- A state with a 2 KiB-page chip and small buffers, for evaluating functions
that do not touch the buffers. -/
def idle2k : State where
  page_buf := []
  oob_buf := []
  bootram_command := 0
  chip := chip2k 0
  mtd := mtd2k
  trace := []

/-- The state after exactly one write of the control word `w` to the window-10
address `MAP_10 | mem_addr` of the block and page of the byte offset `addr`,
everything else (buffers, current half, descriptors) as in `s`. -/
def afterControlWrite (soc : Soc) (s : State) (addr w : Nat) : State :=
  { s with trace := s.trace ++
      [Event.wr (.ahb (MAP_10 soc ||| s3c_mem_addr soc (addr >>> s.chip.erase_shift)
        ((addr >>> s.chip.page_shift) &&& s.chip.page_mask) 0)) w] }

/-- The writes into the command-mapped region found in a trace, in order, each
as the pair of the window address and the value written. -/
def ahbWrites (l : List Event) : List (Nat × Nat) :=
  l.filterMap fun e =>
    match e with
    | .wr (.ahb a) v => some (a, v)
    | _ => none

/-- The window addresses of the reads from the command-mapped region found in a
trace, in order. -/
def ahbReads (l : List Event) : List Nat :=
  l.filterMap fun e =>
    match e with
    | .rd (.ahb a) _ => some a
    | _ => none

/-- The state after the two writes of a lock or unlock command: `w0` to the
window-10 address of block `b0`, then `w1` to the window-10 address of block
`b1`. -/
def afterRangeWrites (soc : Soc) (s : State) (b0 w0 b1 w1 : Nat) : State :=
  { s with trace := s.trace ++
      [Event.wr (.ahb (CMD_MAP_10 soc (s3c_mem_addr soc b0 0 0))) w0,
        Event.wr (.ahb (CMD_MAP_10 soc (s3c_mem_addr soc b1 0 0))) w1] }

/-- The values returned by `count` successive reads of the window address
`addr`, the first of them made after the history `tr`. -/
def readWords (hw : Hw) (addr : Nat) : Nat → List Event → List Nat
  | 0, _ => []
  | count + 1, tr =>
    u32 (hw.dev tr (.ahb addr)) ::
      readWords hw addr count (tr ++ [Event.rd (.ahb addr) (u32 (hw.dev tr (.ahb addr)))])

/-- The window-01 address `MAP_01 | mem_addr` of the block and page of the byte
offset `addr`. -/
def window01 (soc : Soc) (s : State) (addr : Nat) : Nat :=
  MAP_01 soc ||| s3c_mem_addr soc (addr >>> s.chip.erase_shift)
    ((addr >>> s.chip.page_shift) &&& s.chip.page_mask) 0

/-- The byte position in `page_buf` of the word pointer `m` that
`s3c_onenand_command` uses after it has switched the current half: the half
selected by the new index starts `this->writesize >> 2` words into the buffer
when that index is not 0. -/
def selectedMain (s : State) : Nat :=
  if s.chip.bufferram_index ^^^ 1 ≠ 0 then 4 * (s.chip.writesize >>> 2) else 0

/-- The byte position in `oob_buf` of the word pointer `s` that
`s3c_onenand_command` uses after it has switched the current half: the half
selected by the new index starts `mtd->oobsize >> 2` words into the buffer when
that index is not 0. -/
def selectedSpare (s : State) : Nat :=
  if s.chip.bufferram_index ^^^ 1 ≠ 0 then 4 * (s.mtd.oobsize >>> 2) else 0

/-- The words of the main-data transfer of a `READ_OOB` at `addr`: the values of
`writesize / 4` reads of the window-01 address made after the write of the
transfer-spare flag. -/
def oobMainWords (k : Hdr) (soc : Soc) (hw : Hw) (s : State) (addr : Nat) : List Nat :=
  readWords hw (window01 soc s addr) (s.mtd.writesize >>> 2)
    (s.trace ++ [Event.wr (.reg .trans_spare) (u32 k.TSRF)])

/-- The words of the spare transfer of a `READ_OOB` at `addr`: the values of
`oobsize / 4` reads of the window-01 address made after the main-data transfer. -/
def oobSpareWords (k : Hdr) (soc : Soc) (hw : Hw) (s : State) (addr : Nat) : List Nat :=
  readWords hw (window01 soc s addr) (s.mtd.oobsize >>> 2)
    (s.trace ++ [Event.wr (.reg .trans_spare) (u32 k.TSRF)] ++
      (oobMainWords k soc hw s addr).map (Event.rd (.ahb (window01 soc s addr))))

/-- The status value that `s3c_onenand_bbt_wait` re-reads from `int_err_stat`
after its polling loop. -/
def bbtStat (k : Hdr) (hw : Hw) (s : State) : Nat :=
  u32 (hw.dev (poll hw (k.INT_ACT ||| k.LOAD_CMP) (hw.polls s.trace) s).trace
    (.reg .int_err_stat))

/-- The accesses made once `s3c_onenand_bbt_wait` has acknowledged the status:
those of the polling loop, the re-read of `int_err_stat` and the write of the
value read to `int_err_ack`. -/
def bbtAcked (k : Hdr) (hw : Hw) (s : State) : List Event :=
  (poll hw (k.INT_ACT ||| k.LOAD_CMP) (hw.polls s.trace) s).trace ++
    [Event.rd (.reg .int_err_stat) (bbtStat k hw s),
      Event.wr (.reg .int_err_ack) (bbtStat k hw s)]

/-- The value the ECC status register `ecc_err_stat` holds for a read made right
after the acknowledge of `s3c_onenand_bbt_wait`. -/
def bbtEcc (k : Hdr) (hw : Hw) (s : State) : Nat :=
  u32 (hw.dev (bbtAcked k hw s) (.reg .ecc_err_stat))

/-- The values written to the reset register `mem_reset` in a trace, in order:
the reset commands issued. -/
def memResets (l : List Event) : List Nat :=
  l.filterMap fun e =>
    match e with
    | .wr (.reg .mem_reset) v => some v
    | _ => none

/-! ## Theorems -/

/-- For a block below `2 ^ 18` and a page below `64` the packed value is the
plain sum of the shifted fields: nothing overlaps and nothing is cut off. -/
theorem s3c_mem_addr_eq_add (soc : Soc) (b p : Nat) (hb : b < 2 ^ 18) (hp : p < 64) :
    s3c_mem_addr soc b p 0 = b * 2 ^ fbaShift soc + p * 2 ^ fpaShift soc := by
  cases soc
  · have h1 : p * 64 < 2 ^ 12 := by omega
    have h2 := Nat.mul_add_lt_is_or h1 b
    simp only [s3c_mem_addr, u32, fbaShift, fpaShift, Nat.zero_shiftLeft, Nat.or_zero,
      Nat.shiftLeft_eq]
    rw [Nat.mul_comm b (2 ^ 12), ← h2]
    norm_num
    omega
  · have h1 : p * 128 < 2 ^ 13 := by omega
    have h2 := Nat.mul_add_lt_is_or h1 b
    simp only [s3c_mem_addr, u32, fbaShift, fpaShift, Nat.zero_shiftLeft, Nat.or_zero,
      Nat.shiftLeft_eq]
    rw [Nat.mul_comm b (2 ^ 13), ← h2]
    norm_num
    omega

/-- C4: in both SoC layouts, for a block `b < 2 ^ 18` and a page `p < 64`, the
packed address `s3c_mem_addr b p 0` decomposes by the inverse shifts into
`(b, p, 0)`: shifting right by the block shift gives `b`, shifting right by the
page shift and masking with `63` gives `p`, and all bits below the page shift are
zero.  The two layouts differ only in the shift amounts, `(12, 6)` against
`(13, 7)`: each value is `b << B | p << P`, so the S5P value is the S3C64XX value
shifted left by one more bit. -/
theorem s3c_mem_addr_decompose (soc : Soc) (b p : Nat) (hb : b < 2 ^ 18) (hp : p < 64) :
    s3c_mem_addr soc b p 0 >>> fbaShift soc = b ∧
    (s3c_mem_addr soc b p 0 >>> fpaShift soc) &&& 63 = p ∧
    s3c_mem_addr soc b p 0 % 2 ^ fpaShift soc = 0 ∧
    s3c_mem_addr soc b p 0 = (b <<< fbaShift soc) ||| (p <<< fpaShift soc) ∧
    s3c_mem_addr .S5P b p 0 = s3c_mem_addr .S3C64XX b p 0 <<< 1 := by
  have hmask : ∀ x : Nat, x &&& 63 = x % 2 ^ 6 := fun x => Nat.and_pow_two_sub_one_eq_mod x 6
  have e1 := s3c_mem_addr_eq_add .S3C64XX b p hb hp
  have e2 := s3c_mem_addr_eq_add .S5P b p hb hp
  refine ⟨?_, ?_, ?_, ?_, ?_⟩
  · rw [s3c_mem_addr_eq_add soc b p hb hp, Nat.shiftRight_eq_div_pow]
    cases soc <;> simp only [fbaShift, fpaShift] <;> omega
  · rw [s3c_mem_addr_eq_add soc b p hb hp, Nat.shiftRight_eq_div_pow, hmask]
    cases soc <;> simp only [fbaShift, fpaShift] <;> omega
  · rw [s3c_mem_addr_eq_add soc b p hb hp]
    cases soc <;> simp only [fbaShift, fpaShift] <;> omega
  · rw [s3c_mem_addr_eq_add soc b p hb hp]
    cases soc
    · have h1 : p * 2 ^ 6 < 2 ^ 12 := by omega
      have h2 := Nat.mul_add_lt_is_or h1 b
      simp only [fbaShift, fpaShift, Nat.shiftLeft_eq]
      rw [Nat.mul_comm b (2 ^ 12), ← h2]
    · have h1 : p * 2 ^ 7 < 2 ^ 13 := by omega
      have h2 := Nat.mul_add_lt_is_or h1 b
      simp only [fbaShift, fpaShift, Nat.shiftLeft_eq]
      rw [Nat.mul_comm b (2 ^ 13), ← h2]
  · rw [e1, e2, Nat.shiftLeft_eq]
    simp only [fbaShift, fpaShift]
    omega

/-- Witness for C4: block 5, page 3 on the S5P layout. -/
theorem s3c_mem_addr_decompose_witness :
    s3c_mem_addr .S5P 5 3 0 >>> fbaShift .S5P = 5 ∧
    (s3c_mem_addr .S5P 5 3 0 >>> fpaShift .S5P) &&& 63 = 3 ∧
    s3c_mem_addr .S5P 5 3 0 % 2 ^ fpaShift .S5P = 0 ∧
    s3c_mem_addr .S5P 5 3 0 = (5 <<< fbaShift .S5P) ||| (3 <<< fpaShift .S5P) ∧
    s3c_mem_addr .S5P 5 3 0 = s3c_mem_addr .S3C64XX 5 3 0 <<< 1 :=
  s3c_mem_addr_decompose .S5P 5 3 (by decide) (by decide)

/-! ### Buffer memory -/

theorem store_eq_some {mem : List Byte} {pos : Nat} {src : List Byte}
    (h : pos + src.length ≤ mem.length) :
    store mem pos src = some (mem.take pos ++ src ++ mem.drop (pos + src.length)) := by
  simp [store, h]

theorem store_eq_none {mem : List Byte} {pos : Nat} {src : List Byte}
    (h : mem.length < pos + src.length) : store mem pos src = none := by
  simp [store]; omega

theorem store_length {mem mem' : List Byte} {pos : Nat} {src : List Byte}
    (h : store mem pos src = some mem') : mem'.length = mem.length := by
  unfold store at h
  split at h
  · cases h
    simp
    omega
  · cases h

theorem store_bound {mem mem' : List Byte} {pos : Nat} {src : List Byte}
    (h : store mem pos src = some mem') : pos + src.length ≤ mem.length := by
  unfold store at h
  split at h
  · assumption
  · cases h

theorem load_store {mem mem' : List Byte} {pos : Nat} {src : List Byte}
    (h : store mem pos src = some mem') : load mem' pos src.length = some src := by
  have hb := store_bound h
  have hl := store_length h
  rw [store_eq_some hb] at h
  cases h
  have h1 : (mem.take pos).length = pos := by simp; omega
  unfold load
  rw [if_pos (by omega), List.append_assoc, List.drop_append_of_le_length (by omega)]
  simp [List.drop_eq_nil_of_le, h1]

theorem store_getElem?_lt {mem mem' : List Byte} {pos : Nat} {src : List Byte}
    (h : store mem pos src = some mem') {i : Nat} (hi : i < pos) : mem'[i]? = mem[i]? := by
  have hb := store_bound h
  rw [store_eq_some hb] at h
  cases h
  have h1 : (mem.take pos).length = pos := by simp; omega
  rw [List.append_assoc, List.getElem?_append_left (by omega), List.getElem?_take]
  simp [hi]

theorem store_getElem?_ge {mem mem' : List Byte} {pos : Nat} {src : List Byte}
    (h : store mem pos src = some mem') {i : Nat} (hi : pos + src.length ≤ i) :
    mem'[i]? = mem[i]? := by
  have hb := store_bound h
  rw [store_eq_some hb] at h
  cases h
  have h1 : (mem.take pos).length = pos := by simp; omega
  rw [List.getElem?_append_right (by simp; omega), List.getElem?_drop]
  congr 1
  simp
  omega

theorem Region.get_set_same (s : State) (mem : List Byte) (r : Region) :
    r.get (r.set s mem) = mem := by
  cases r <;> rfl

theorem s3c_get_bufferram_set (k : Hdr) (s : State) (mem : List Byte) (r : Region) (area : Nat) :
    s3c_get_bufferram k (r.set s mem) area = s3c_get_bufferram k s area := by
  cases r <;> rfl

theorem s3c_onenand_init_page_buf_length (chip : onenand_chip) (mtd : mtd_info) (b : Nat) :
    (s3c_onenand_init chip mtd b).page_buf.length = 4096 := by
  show (List.replicate (4 <<< 10) _).length = 4096
  rw [List.length_replicate]
  rfl

theorem s3c_onenand_init_oob_buf_length (chip : onenand_chip) (mtd : mtd_info) (b : Nat) :
    (s3c_onenand_init chip mtd b).oob_buf.length = 128 := by
  show (List.replicate 128 _).length = 128
  rw [List.length_replicate]

/-- C1 (as amended): for every area, every current buffer half, every offset
`O ≥ 0` and every byte sequence of length `N` with `O + N` no larger than the
half's size, provided the selected half lies inside the allocated buffer (its
start plus its size is at most the length of the allocation),
`onenand_write_bufferram` of the bytes at offset `O` returns 0 and a following
`onenand_read_bufferram` of `N` bytes at offset `O` in the same area returns 0
and exactly the bytes written. -/
theorem bufferram_write_read (k : Hdr) (s : State) (area : Nat) (buffer : List Byte)
    (offset : Int) (count : Nat)
    (hoff : 0 ≤ offset) (hlen : buffer.length = count)
    (hhalf : offset + count ≤ halfSize k s area)
    (hfit : (s3c_get_bufferram k s area).2 + halfSize k s area
      ≤ ((s3c_get_bufferram k s area).1.get s).length) :
    ∃ s', onenand_write_bufferram k s area buffer offset count = some (s', 0) ∧
      onenand_read_bufferram k s' area offset count = some (buffer, 0) := by
  subst hlen
  have hpos : ¬ (((s3c_get_bufferram k s area).2 : Int) + offset < 0) := by omega
  have hb : (((s3c_get_bufferram k s area).2 : Int) + offset).toNat + buffer.length
      ≤ ((s3c_get_bufferram k s area).1.get s).length := by
    omega
  obtain ⟨mem', hst⟩ : ∃ mem', store ((s3c_get_bufferram k s area).1.get s)
      (((s3c_get_bufferram k s area).2 : Int) + offset).toNat buffer = some mem' :=
    ⟨_, store_eq_some hb⟩
  have hld := load_store hst
  refine ⟨(s3c_get_bufferram k s area).1.set s mem', ?_, ?_⟩
  · simp only [onenand_write_bufferram, hpos, Nat.lt_irrefl, or_self, if_false,
      List.take_length, hst, Option.map_some']
  · simp only [onenand_read_bufferram, s3c_get_bufferram_set, hpos, if_false,
      Region.get_set_same, hld, Option.map_some']

/-- Witness for C1 (as amended): three bytes written at offset 5 of the spare
area of a chip with 2 KiB pages, the second half being current. -/
theorem bufferram_write_read_witness :
    ∃ s', onenand_write_bufferram uboot (s3c_onenand_init (chip2k 1) mtd2k 0) 0x8010
        [1, 2, 3] 5 3 = some (s', 0) ∧
      onenand_read_bufferram uboot s' 0x8010 5 3 = some ([1, 2, 3], 0) :=
  bufferram_write_read uboot (s3c_onenand_init (chip2k 1) mtd2k 0) 0x8010 [1, 2, 3] 5 3
    (by decide) (by decide) (by decide)
    (by
      have h1 : (s3c_onenand_init (chip2k 1) mtd2k 0).chip = chip2k 1 := rfl
      have h2 : (s3c_onenand_init (chip2k 1) mtd2k 0).mtd = mtd2k := rfl
      simp only [s3c_get_bufferram, halfSize, uboot, ONENAND_CURRENT_BUFFERRAM, h1, h2, chip2k,
        mtd2k, Nat.reduceEqDiff, if_false, if_true, Region.get, s3c_onenand_init_oob_buf_length]
      decide)

/-- C1 fails as stated: on a chip with 4 KiB pages, with the second half current,
one byte written at offset 0 of the main-data area satisfies `O + N ≤ writesize`,
yet the write addresses byte 4096 of the 4096-byte `page_buf` that
`s3c_onenand_init` allocates, outside the allocation, and yields no result. -/
theorem bufferram_write_read_counterexample :
    (0 : Int) + 1 ≤ halfSize uboot (s3c_onenand_init (chip4k 1) mtd4k 0) 0x0200 ∧
    (s3c_onenand_init (chip4k 1) mtd4k 0).page_buf.length = 4096 ∧
    onenand_write_bufferram uboot (s3c_onenand_init (chip4k 1) mtd4k 0) 0x0200 [0x5a] 0 1
      = none := by
  refine ⟨by decide, s3c_onenand_init_page_buf_length _ _ _, ?_⟩
  have h : (s3c_onenand_init (chip4k 1) mtd4k 0).chip = chip4k 1 := rfl
  simp only [onenand_write_bufferram, s3c_get_bufferram, ONENAND_CURRENT_BUFFERRAM, uboot, h,
    chip4k, Region.get, if_true]
  rw [store_eq_none]
  · simp
  · rw [s3c_onenand_init_page_buf_length]
    decide

theorem store_getElem?_mid {mem mem' : List Byte} {pos : Nat} {src : List Byte}
    (h : store mem pos src = some mem') {j : Nat} (hj : j < src.length) :
    mem'[pos + j]? = src[j]? := by
  have hb := store_bound h
  rw [store_eq_some hb] at h
  cases h
  have h1 : (mem.take pos).length = pos := by simp; omega
  rw [List.append_assoc, List.getElem?_append_right (by omega), h1,
    List.getElem?_append_left (by omega)]
  congr 1
  omega

/-- C2 (as amended): a `onenand_write_bufferram` call made while the current
buffer half index is 0 leaves every byte of half 1 of both buffer regions
unchanged, and a call made while the index is 1 leaves every byte of half 0
unchanged, for every area, whenever the offset is not negative, offset plus
count is no larger than the half's size and the selected half lies inside the
allocated buffer; the call then returns 0. -/
theorem bufferram_write_frame (k : Hdr) (s : State) (area : Nat) (buffer : List Byte)
    (offset : Int) (count : Nat)
    (hidx : s.chip.bufferram_index ≤ 1)
    (hoff : 0 ≤ offset) (hlen : count ≤ buffer.length)
    (hhalf : offset + count ≤ halfSize k s area)
    (hfit : (s3c_get_bufferram k s area).2 + halfSize k s area
      ≤ ((s3c_get_bufferram k s area).1.get s).length) :
    ∃ s', onenand_write_bufferram k s area buffer offset count = some (s', 0) ∧
      (∀ i, (1 - s.chip.bufferram_index) * s.chip.writesize ≤ i →
        i < (1 - s.chip.bufferram_index) * s.chip.writesize + s.chip.writesize →
        s'.page_buf[i]? = s.page_buf[i]?) ∧
      (∀ i, (1 - s.chip.bufferram_index) * s.mtd.oobsize ≤ i →
        i < (1 - s.chip.bufferram_index) * s.mtd.oobsize + s.mtd.oobsize →
        s'.oob_buf[i]? = s.oob_buf[i]?) := by
  have hpos : ¬ (((s3c_get_bufferram k s area).2 : Int) + offset < 0) := by omega
  have hc : ¬ (buffer.length < count) := by omega
  have htl : (buffer.take count).length = count := by
    rw [List.length_take]; omega
  have hb : (((s3c_get_bufferram k s area).2 : Int) + offset).toNat + (buffer.take count).length
      ≤ ((s3c_get_bufferram k s area).1.get s).length := by
    omega
  obtain ⟨mem', hst⟩ : ∃ mem', store ((s3c_get_bufferram k s area).1.get s)
      (((s3c_get_bufferram k s area).2 : Int) + offset).toNat (buffer.take count) = some mem' :=
    ⟨_, store_eq_some hb⟩
  refine ⟨(s3c_get_bufferram k s area).1.set s mem', ?_, ?_⟩
  · simp only [onenand_write_bufferram, hpos, hc, or_self, if_false, hst, Option.map_some']
  · have hi : s.chip.bufferram_index = 0 ∨ s.chip.bufferram_index = 1 := by omega
    by_cases ha : area = k.ONENAND_DATARAM
    · simp only [s3c_get_bufferram, ONENAND_CURRENT_BUFFERRAM, ha, if_true, halfSize,
        Region.get] at hst hhalf
      have hset : (s3c_get_bufferram k s area).1 = Region.page_buf := by
        simp only [s3c_get_bufferram, ha, if_true]
      rw [hset]
      refine ⟨fun i h1 h2 => ?_, fun i _ _ => rfl⟩
      show mem'[i]? = s.page_buf[i]?
      rcases hi with hi | hi
      · simp only [hi, Nat.zero_ne_one, if_false, Nat.sub_zero, Nat.one_mul] at hst h1
        exact store_getElem?_ge hst (by omega)
      · simp only [hi, if_true, Nat.sub_self, Nat.zero_mul, Nat.zero_add] at hst h2
        exact store_getElem?_lt hst (by omega)
    · simp only [s3c_get_bufferram, ONENAND_CURRENT_BUFFERRAM, ha, if_false, halfSize,
        Region.get] at hst hhalf
      have hset : (s3c_get_bufferram k s area).1 = Region.oob_buf := by
        simp only [s3c_get_bufferram, ha, if_false]
      rw [hset]
      refine ⟨fun i _ _ => rfl, fun i h1 h2 => ?_⟩
      show mem'[i]? = s.oob_buf[i]?
      rcases hi with hi | hi
      · simp only [hi, Nat.zero_ne_one, if_false, Nat.sub_zero, Nat.one_mul] at hst h1
        exact store_getElem?_ge hst (by omega)
      · simp only [hi, if_true, Nat.sub_self, Nat.zero_mul, Nat.zero_add] at hst h2
        exact store_getElem?_lt hst (by omega)

/-- Witness for C2 (as amended): the last two bytes of half 0 of the main-data
area are written on a chip with 2 KiB pages. -/
theorem bufferram_write_frame_witness :
    ∃ s', onenand_write_bufferram uboot (s3c_onenand_init (chip2k 0) mtd2k 0) 0x0200
        [1, 2] 2046 2 = some (s', 0) ∧
      (∀ i, (1 - 0) * 2048 ≤ i → i < (1 - 0) * 2048 + 2048 →
        s'.page_buf[i]? = (s3c_onenand_init (chip2k 0) mtd2k 0).page_buf[i]?) ∧
      (∀ i, (1 - 0) * 64 ≤ i → i < (1 - 0) * 64 + 64 →
        s'.oob_buf[i]? = (s3c_onenand_init (chip2k 0) mtd2k 0).oob_buf[i]?) :=
  bufferram_write_frame uboot (s3c_onenand_init (chip2k 0) mtd2k 0) 0x0200 [1, 2] 2046 2
    (by decide) (by decide) (by decide) (by decide)
    (by
      have h1 : (s3c_onenand_init (chip2k 0) mtd2k 0).chip = chip2k 0 := rfl
      simp only [s3c_get_bufferram, halfSize, uboot, ONENAND_CURRENT_BUFFERRAM, h1, chip2k,
        if_true, Region.get, s3c_onenand_init_page_buf_length]
      decide)

/-- C2 fails as stated: on a chip with 2 KiB pages, with half 0 current, a write
of one byte at offset 2048 of the main-data area returns 0 and changes byte 2048
of `page_buf`, the first byte of half 1. -/
theorem bufferram_write_frame_counterexample :
    (s3c_onenand_init (chip2k 0) mtd2k 0).chip.bufferram_index = 0 ∧
    ∃ s', onenand_write_bufferram uboot (s3c_onenand_init (chip2k 0) mtd2k 0) 0x0200
        [0] 2048 1 = some (s', 0) ∧
      s'.page_buf[1 * 2048 + 0]? = some 0 ∧
      (s3c_onenand_init (chip2k 0) mtd2k 0).page_buf[1 * 2048 + 0]? = some 0xff := by
  have h1 : (s3c_onenand_init (chip2k 0) mtd2k 0).chip = chip2k 0 := rfl
  have hb : 2048 + ([0] : List Byte).length
      ≤ (s3c_onenand_init (chip2k 0) mtd2k 0).page_buf.length := by
    rw [s3c_onenand_init_page_buf_length]; decide
  obtain ⟨mem', hst⟩ : ∃ mem', store (s3c_onenand_init (chip2k 0) mtd2k 0).page_buf 2048 [0]
      = some mem' := ⟨_, store_eq_some hb⟩
  refine ⟨rfl, Region.page_buf.set (s3c_onenand_init (chip2k 0) mtd2k 0) mem', ?_, ?_, ?_⟩
  · simp only [onenand_write_bufferram, s3c_get_bufferram, ONENAND_CURRENT_BUFFERRAM, uboot, h1,
      chip2k, if_true, Region.get]
    rw [if_neg (by decide)]
    exact congrArg (Option.map _) hst
  · exact store_getElem?_mid hst (by decide)
  · show (List.replicate (4 <<< 10) (0xff : Byte))[1 * 2048 + 0]? = some 0xff
    rw [List.getElem?_replicate]
    rfl

/-! ### Bit-level facts -/

theorem u32_u32 (x : Nat) : u32 (u32 x) = u32 x := by
  simp [u32]

theorem lor_eq_zero (a b : Nat) : a ||| b = 0 ↔ a = 0 ∧ b = 0 := by
  constructor
  · intro h
    have hb : ∀ i, (a ||| b).testBit i = false := by
      intro i; rw [h]; exact Nat.zero_testBit i
    constructor
    · apply Nat.eq_of_testBit_eq
      intro i
      have := hb i
      rw [Nat.testBit_or, Bool.or_eq_false_iff] at this
      rw [this.1, Nat.zero_testBit]
    · apply Nat.eq_of_testBit_eq
      intro i
      have := hb i
      rw [Nat.testBit_or, Bool.or_eq_false_iff] at this
      rw [this.2, Nat.zero_testBit]
  · rintro ⟨rfl, rfl⟩
    rfl

theorem and_lor_ne_zero (x a b : Nat) : x &&& (a ||| b) ≠ 0 ↔ x &&& a ≠ 0 ∨ x &&& b ≠ 0 := by
  rw [Nat.and_or_distrib_left, Ne, lor_eq_zero]
  tauto

/-- The mask test of `s3c_onenand_wait` for a controller fault holds exactly
when one of the four fault flags is set in the status. -/
theorem fault_mask_iff (k : Hdr) (stat : Nat) :
    stat &&& (k.LOCKED_BLK ||| k.ERS_FAIL ||| k.PGM_FAIL ||| k.LD_FAIL_ECC_ERR) ≠ 0 ↔
      (stat &&& k.LOCKED_BLK ≠ 0 ∨ stat &&& k.ERS_FAIL ≠ 0 ∨ stat &&& k.PGM_FAIL ≠ 0 ∨
        stat &&& k.LD_FAIL_ECC_ERR ≠ 0) := by
  rw [and_lor_ne_zero, and_lor_ne_zero, and_lor_ne_zero]
  tauto

/-! ### The completion waiter -/

theorem poll_eq (hw : Hw) (flags n : Nat) (s : State) :
    poll hw flags n s = { s with trace := (poll hw flags n s).trace } := by
  induction n generalizing s with
  | zero => rfl
  | succ n ih =>
    simp only [poll, readl]
    split
    · rfl
    · rw [ih]

/-- Unfolding of `s3c_onenand_wait` in terms of the status and ECC values it
reads. -/
theorem s3c_onenand_wait_eq (k : Hdr) (hw : Hw) (state : Nat) (s : State) :
    s3c_onenand_wait k hw state s =
      if waitStat k hw state s &&& k.LOAD_CMP ≠ 0 then
        if waitEcc k hw state s &&& k.ONENAND_ECC_4BIT_UNCORRECTABLE ≠ 0 then
          (-( k.EBADMSG : Int),
            { s with
              mtd := { s.mtd with ecc_stats_failed := u32 (s.mtd.ecc_stats_failed + 1) }
              trace := waitAcked k hw state s ++
                [Event.rd (.reg .ecc_err_stat) (waitEcc k hw state s)] })
        else if waitStat k hw state s &&&
            (k.LOCKED_BLK ||| k.ERS_FAIL ||| k.PGM_FAIL ||| k.LD_FAIL_ECC_ERR) ≠ 0 then
          (-( k.EIO : Int),
            { s with trace := waitAcked k hw state s ++
                [Event.rd (.reg .ecc_err_stat) (waitEcc k hw state s)] })
        else
          (0, { s with trace := waitAcked k hw state s ++
                [Event.rd (.reg .ecc_err_stat) (waitEcc k hw state s)] })
      else if waitStat k hw state s &&&
          (k.LOCKED_BLK ||| k.ERS_FAIL ||| k.PGM_FAIL ||| k.LD_FAIL_ECC_ERR) ≠ 0 then
        (-( k.EIO : Int), { s with trace := waitAcked k hw state s })
      else (0, { s with trace := waitAcked k hw state s }) := by
  obtain ⟨T, hT⟩ : ∃ T, poll hw (s3c_onenand_wait_flags k state) (hw.polls s.trace) s
      = { s with trace := T } := ⟨_, poll_eq _ _ _ _⟩
  simp only [s3c_onenand_wait, waitStat, waitAcked, waitEcc, readl, writel, u32_u32, hT,
    List.append_assoc, List.singleton_append, List.cons_append, List.nil_append]

/-- C6: `s3c_onenand_wait` decides its result from the status value re-read
after the polling loop and from the ECC status register, in this order: when the
status has `LOAD_CMP` and the ECC register has an uncorrectable 4-bit error bit
it returns `-EBADMSG` and adds one to `mtd->ecc_stats.failed` (a 32-bit counter);
else when the status has any of `LOCKED_BLK`, `ERS_FAIL`, `PGM_FAIL`,
`LD_FAIL_ECC_ERR` it returns `-EIO`; otherwise it returns 0, whatever the
polling loop saw and however many polls the deadline allowed; the counter is
unchanged in the last two cases, and for every awaited state the accesses made
after the polling loop are the re-read of the status, the write of that value to
the acknowledge register and, when the status has `LOAD_CMP`, the read of the ECC
status register. -/
theorem s3c_onenand_wait_result (k : Hdr) (hw : Hw) (state : Nat) (s : State) :
    (s3c_onenand_wait k hw state s).1 =
      (if waitStat k hw state s &&& k.LOAD_CMP ≠ 0 ∧
          waitEcc k hw state s &&& k.ONENAND_ECC_4BIT_UNCORRECTABLE ≠ 0 then
        -( k.EBADMSG : Int)
      else if waitStat k hw state s &&& k.LOCKED_BLK ≠ 0 ∨
          waitStat k hw state s &&& k.ERS_FAIL ≠ 0 ∨
          waitStat k hw state s &&& k.PGM_FAIL ≠ 0 ∨
          waitStat k hw state s &&& k.LD_FAIL_ECC_ERR ≠ 0 then
        -( k.EIO : Int)
      else 0) ∧
    (s3c_onenand_wait k hw state s).2.mtd.ecc_stats_failed =
      (if waitStat k hw state s &&& k.LOAD_CMP ≠ 0 ∧
          waitEcc k hw state s &&& k.ONENAND_ECC_4BIT_UNCORRECTABLE ≠ 0 then
        u32 (s.mtd.ecc_stats_failed + 1)
      else s.mtd.ecc_stats_failed) ∧
    (s3c_onenand_wait k hw state s).2.trace =
      (poll hw (s3c_onenand_wait_flags k state) (hw.polls s.trace) s).trace ++
        [Event.rd (.reg .int_err_stat) (waitStat k hw state s),
          Event.wr (.reg .int_err_ack) (waitStat k hw state s)] ++
        (if waitStat k hw state s &&& k.LOAD_CMP ≠ 0 then
          [Event.rd (.reg .ecc_err_stat) (waitEcc k hw state s)]
        else []) := by
  rw [s3c_onenand_wait_eq]
  have hf := fault_mask_iff k (waitStat k hw state s)
  by_cases h1 : waitStat k hw state s &&& k.LOAD_CMP ≠ 0
  · by_cases h2 : waitEcc k hw state s &&& k.ONENAND_ECC_4BIT_UNCORRECTABLE ≠ 0
    · simp only [if_pos h1, if_pos h2, if_pos (And.intro h1 h2)]
      exact ⟨trivial, trivial, rfl⟩
    · have h12 : ¬ (waitStat k hw state s &&& k.LOAD_CMP ≠ 0 ∧
          waitEcc k hw state s &&& k.ONENAND_ECC_4BIT_UNCORRECTABLE ≠ 0) := fun h => h2 h.2
      by_cases h3 : waitStat k hw state s &&&
          (k.LOCKED_BLK ||| k.ERS_FAIL ||| k.PGM_FAIL ||| k.LD_FAIL_ECC_ERR) ≠ 0
      · simp only [if_pos h1, if_neg h2, if_neg h12, if_pos h3, if_pos (hf.mp h3)]
        exact ⟨trivial, trivial, rfl⟩
      · simp only [if_pos h1, if_neg h2, if_neg h12, if_neg h3, if_neg (mt hf.mpr h3)]
        exact ⟨trivial, trivial, rfl⟩
  · have h12 : ¬ (waitStat k hw state s &&& k.LOAD_CMP ≠ 0 ∧
        waitEcc k hw state s &&& k.ONENAND_ECC_4BIT_UNCORRECTABLE ≠ 0) := fun h => h1 h.1
    by_cases h3 : waitStat k hw state s &&&
        (k.LOCKED_BLK ||| k.ERS_FAIL ||| k.PGM_FAIL ||| k.LD_FAIL_ECC_ERR) ≠ 0
    · simp only [if_neg h1, if_neg h12, if_pos h3, if_pos (hf.mp h3), List.append_nil]
      exact ⟨trivial, trivial, rfl⟩
    · simp only [if_neg h1, if_neg h12, if_neg h3, if_neg (mt hf.mpr h3), List.append_nil]
      exact ⟨trivial, trivial, rfl⟩

/-- C7 (as amended): for every awaited state, whenever the status value re-read
after the polling loop has `LOAD_CMP` set, the ECC status register reports an
uncorrectable 4-bit error and the status has a controller-fault flag set at the
same time (any of `LOCKED_BLK`, `ERS_FAIL`, `PGM_FAIL`, `LD_FAIL_ECC_ERR`),
`s3c_onenand_wait` returns `-EBADMSG` and not `-EIO`. -/
theorem s3c_onenand_wait_ecc_first (k : Hdr) (hw : Hw) (state : Nat) (s : State)
    (hne : k.EBADMSG ≠ k.EIO)
    (hload : waitStat k hw state s &&& k.LOAD_CMP ≠ 0)
    (hecc : waitEcc k hw state s &&& k.ONENAND_ECC_4BIT_UNCORRECTABLE ≠ 0)
    (_hfault : waitStat k hw state s &&& k.LOCKED_BLK ≠ 0 ∨
      waitStat k hw state s &&& k.ERS_FAIL ≠ 0 ∨
      waitStat k hw state s &&& k.PGM_FAIL ≠ 0 ∨
      waitStat k hw state s &&& k.LD_FAIL_ECC_ERR ≠ 0) :
    (s3c_onenand_wait k hw state s).1 = -( k.EBADMSG : Int) ∧
    (s3c_onenand_wait k hw state s).1 ≠ -( k.EIO : Int) := by
  rw [s3c_onenand_wait_eq, if_pos hload, if_pos hecc]
  refine ⟨rfl, ?_⟩
  show -( k.EBADMSG : Int) ≠ -( k.EIO : Int)
  omega

/-- Witness for C7 (as amended): a read is awaited, the status shows `LOAD_CMP`
together with `LD_FAIL_ECC_ERR`, and the ECC status is `0x1010`. -/
theorem s3c_onenand_wait_ecc_first_witness :
    (s3c_onenand_wait uboot (hwConst 0x11 0x1010) uboot.FL_READING idle2k).1
      = -( uboot.EBADMSG : Int) ∧
    (s3c_onenand_wait uboot (hwConst 0x11 0x1010) uboot.FL_READING idle2k).1
      ≠ -( uboot.EIO : Int) :=
  s3c_onenand_wait_ecc_first uboot (hwConst 0x11 0x1010) uboot.FL_READING idle2k
    (by decide) (by decide) (by decide) (by decide)

/-- C7 fails as stated: with the status register reading `LD_FAIL_ECC_ERR` alone
(a controller-fault flag, `LOAD_CMP` clear) and the ECC status register reading
`0x1010` (uncorrectable), `s3c_onenand_wait` does not look at the ECC status and
returns `-EIO`, not `-EBADMSG`. -/
theorem s3c_onenand_wait_ecc_first_counterexample :
    waitEcc uboot (hwConst 0x1 0x1010) uboot.FL_READING idle2k
      &&& uboot.ONENAND_ECC_4BIT_UNCORRECTABLE ≠ 0 ∧
    waitStat uboot (hwConst 0x1 0x1010) uboot.FL_READING idle2k &&& uboot.LD_FAIL_ECC_ERR ≠ 0 ∧
    (s3c_onenand_wait uboot (hwConst 0x1 0x1010) uboot.FL_READING idle2k).1
      = -( uboot.EIO : Int) ∧
    (s3c_onenand_wait uboot (hwConst 0x1 0x1010) uboot.FL_READING idle2k).1
      ≠ -( uboot.EBADMSG : Int) := by
  decide

/-! ### The command dispatcher -/

theorem testBit_of_u32_eq {a b : Nat} (h : u32 a = u32 b) {j : Nat} (hj : j < 32) :
    a.testBit j = b.testBit j := by
  have h1 := Nat.testBit_mod_two_pow a 32 j
  have h2 := Nat.testBit_mod_two_pow b 32 j
  simp only [hj, decide_True, Bool.true_and] at h1 h2
  rw [← h1, ← h2]
  exact congrArg (fun x => x.testBit j) h

theorem u32_shiftLeft_lor_congr {a b : Nat} (h : u32 a = u32 b) (n y : Nat) :
    u32 ((a <<< n) ||| y) = u32 ((b <<< n) ||| y) := by
  apply Nat.eq_of_testBit_eq
  intro i
  simp only [u32, Nat.testBit_mod_two_pow, Nat.testBit_or, Nat.testBit_shiftLeft]
  by_cases hi : i < 32
  · have : i - n < 32 := by omega
    rw [testBit_of_u32_eq h this]
  · simp [hi]

/-- The packed address depends only on the low 32 bits of the block and page
arguments, so the conversions of the arguments to `int` do not change it. -/
theorem s3c_mem_addr_congr (soc : Soc) {a a' p p' : Nat} (ha : u32 a = u32 a')
    (hp : u32 p = u32 p') (f : Nat) : s3c_mem_addr soc a p f = s3c_mem_addr soc a' p' f := by
  cases soc
  · simp only [s3c_mem_addr]
    rw [Nat.or_assoc, u32_shiftLeft_lor_congr ha, ← Nat.or_assoc,
      Nat.or_comm (a' <<< 12), Nat.or_assoc, u32_shiftLeft_lor_congr hp, ← Nat.or_assoc,
      Nat.or_comm (p' <<< 6)]
  · simp only [s3c_mem_addr]
    rw [Nat.or_assoc, u32_shiftLeft_lor_congr ha, ← Nat.or_assoc,
      Nat.or_comm (a' <<< 13), Nat.or_assoc, u32_shiftLeft_lor_congr hp, ← Nat.or_assoc,
      Nat.or_comm (p' <<< 7)]

theorem u32_land_congr (a m : Nat) : u32 (u32 a &&& m) = u32 (a &&& m) := by
  apply Nat.eq_of_testBit_eq
  intro i
  simp only [u32, Nat.testBit_mod_two_pow, Nat.testBit_and]
  by_cases h : i < 32 <;> simp [h]

theorem s3c_mem_addr_lt (soc : Soc) (a p f : Nat) : s3c_mem_addr soc a p f < 2 ^ 32 := by
  cases soc <;> exact Nat.mod_lt _ (by decide)

theorem MAP_10_lt (soc : Soc) : MAP_10 soc < 2 ^ 32 := by
  cases soc <;> decide

theorem MAP_01_lt (soc : Soc) : MAP_01 soc < 2 ^ 32 := by
  cases soc <;> decide

/-- The macro `CMD_MAP_10` applied to a packed address is the plain bitwise or
with the window tag: nothing is cut off. -/
theorem CMD_MAP_10_mem_addr (soc : Soc) (a p f : Nat) :
    CMD_MAP_10 soc (s3c_mem_addr soc a p f) = MAP_10 soc ||| s3c_mem_addr soc a p f :=
  Nat.mod_eq_of_lt (Nat.or_lt_two_pow (MAP_10_lt soc) (s3c_mem_addr_lt soc a p f))

/-- The macro `CMD_MAP_01` applied to a packed address is the plain bitwise or
with the window tag: nothing is cut off. -/
theorem CMD_MAP_01_mem_addr (soc : Soc) (a p f : Nat) :
    CMD_MAP_01 soc (s3c_mem_addr soc a p f) = MAP_01 soc ||| s3c_mem_addr soc a p f :=
  Nat.mod_eq_of_lt (Nat.or_lt_two_pow (MAP_01_lt soc) (s3c_mem_addr_lt soc a p f))

/-- The packed address `s3c_onenand_command` computes is the packing of
`addr >> erase_shift` and `(addr >> page_shift) & page_mask` with sector 0. -/
theorem command_mem_addr (soc : Soc) (addr es ps pm : Nat) :
    s3c_mem_addr soc (u32 (addr >>> es)) (u32 (addr >>> ps) &&& pm) 0
      = s3c_mem_addr soc (addr >>> es) ((addr >>> ps) &&& pm) 0 :=
  s3c_mem_addr_congr soc (u32_u32 _) (u32_land_congr _ _) 0

/-- The inequalities between command codes that `Hdr.cmdsDistinct` packs. -/
theorem cmdsDistinct_ne (k : Hdr) (hk : k.cmdsDistinct) :
    (k.ONENAND_CMD_UNLOCK_ALL ≠ k.ONENAND_CMD_READ ∧
      k.ONENAND_CMD_UNLOCK_ALL ≠ k.ONENAND_CMD_READOOB ∧
      k.ONENAND_CMD_UNLOCK_ALL ≠ k.ONENAND_CMD_BUFFERRAM ∧
      k.ONENAND_CMD_UNLOCK_ALL ≠ k.ONENAND_CMD_PROG ∧
      k.ONENAND_CMD_UNLOCK_ALL ≠ k.ONENAND_CMD_PROGOOB) ∧
    (k.ONENAND_CMD_ERASE ≠ k.ONENAND_CMD_READ ∧
      k.ONENAND_CMD_ERASE ≠ k.ONENAND_CMD_READOOB ∧
      k.ONENAND_CMD_ERASE ≠ k.ONENAND_CMD_BUFFERRAM ∧
      k.ONENAND_CMD_ERASE ≠ k.ONENAND_CMD_PROG ∧
      k.ONENAND_CMD_ERASE ≠ k.ONENAND_CMD_PROGOOB ∧
      k.ONENAND_CMD_ERASE ≠ k.ONENAND_CMD_UNLOCK_ALL) ∧
    (k.ONENAND_CMD_MULTIBLOCK_ERASE ≠ k.ONENAND_CMD_READ ∧
      k.ONENAND_CMD_MULTIBLOCK_ERASE ≠ k.ONENAND_CMD_READOOB ∧
      k.ONENAND_CMD_MULTIBLOCK_ERASE ≠ k.ONENAND_CMD_BUFFERRAM ∧
      k.ONENAND_CMD_MULTIBLOCK_ERASE ≠ k.ONENAND_CMD_PROG ∧
      k.ONENAND_CMD_MULTIBLOCK_ERASE ≠ k.ONENAND_CMD_PROGOOB ∧
      k.ONENAND_CMD_MULTIBLOCK_ERASE ≠ k.ONENAND_CMD_UNLOCK_ALL ∧
      k.ONENAND_CMD_MULTIBLOCK_ERASE ≠ k.ONENAND_CMD_ERASE) ∧
    (k.ONENAND_CMD_ERASE_VERIFY ≠ k.ONENAND_CMD_READ ∧
      k.ONENAND_CMD_ERASE_VERIFY ≠ k.ONENAND_CMD_READOOB ∧
      k.ONENAND_CMD_ERASE_VERIFY ≠ k.ONENAND_CMD_BUFFERRAM ∧
      k.ONENAND_CMD_ERASE_VERIFY ≠ k.ONENAND_CMD_PROG ∧
      k.ONENAND_CMD_ERASE_VERIFY ≠ k.ONENAND_CMD_PROGOOB ∧
      k.ONENAND_CMD_ERASE_VERIFY ≠ k.ONENAND_CMD_UNLOCK_ALL ∧
      k.ONENAND_CMD_ERASE_VERIFY ≠ k.ONENAND_CMD_ERASE ∧
      k.ONENAND_CMD_ERASE_VERIFY ≠ k.ONENAND_CMD_MULTIBLOCK_ERASE) := by
  simp only [Hdr.cmdsDistinct, List.nodup_cons, List.mem_cons, List.mem_singleton, not_or,
    List.not_mem_nil, not_false_eq_true, List.nodup_nil, and_true] at hk
  obtain ⟨⟨_, _, _, _, r5, r6, r7, r8⟩, ⟨_, _, _, o5, o6, o7, o8⟩, ⟨_, _, b5, b6, b7, b8⟩,
    ⟨_, p5, p6, p7, p8⟩, ⟨q5, q6, q7, q8⟩, ⟨u6, u7, u8⟩, ⟨e7, e8⟩, m8⟩ := hk
  exact ⟨⟨Ne.symm r5, Ne.symm o5, Ne.symm b5, Ne.symm p5, Ne.symm q5⟩,
    ⟨Ne.symm r6, Ne.symm o6, Ne.symm b6, Ne.symm p6, Ne.symm q6, Ne.symm u6⟩,
    ⟨Ne.symm r7, Ne.symm o7, Ne.symm b7, Ne.symm p7, Ne.symm q7, Ne.symm u7, Ne.symm e7⟩,
    ⟨Ne.symm r8, Ne.symm o8, Ne.symm b8, Ne.symm p8, Ne.symm q8, Ne.symm u8, Ne.symm e8,
      Ne.symm m8⟩⟩

/-- C5: for every byte offset `addr`, `s3c_onenand_command` packs block
`addr >> erase_shift`, page `(addr >> page_shift) & page_mask` and sector 0 with
the SoC function into `mem_addr`, and for `ERASE`, `MULTIBLOCK_ERASE`,
`ERASE_VERIFY` and `UNLOCK_ALL` it issues exactly one write, of the control word
`0x03`, `0x01`, `0x15` or `0x0E` respectively, to the window-10 address
`MAP_10 | mem_addr`; nothing else is accessed, both buffer regions and the
current buffer half index are unchanged, and the result is 0. -/
theorem s3c_onenand_command_control (k : Hdr) (soc : Soc) (hw : Hw) (addr len : Nat)
    (s : State) (hk : k.cmdsDistinct) :
    s3c_onenand_command k soc hw k.ONENAND_CMD_ERASE addr len s
      = some (0, afterControlWrite soc s addr 0x03) ∧
    s3c_onenand_command k soc hw k.ONENAND_CMD_MULTIBLOCK_ERASE addr len s
      = some (0, afterControlWrite soc s addr 0x01) ∧
    s3c_onenand_command k soc hw k.ONENAND_CMD_ERASE_VERIFY addr len s
      = some (0, afterControlWrite soc s addr 0x15) ∧
    s3c_onenand_command k soc hw k.ONENAND_CMD_UNLOCK_ALL addr len s
      = some (0, afterControlWrite soc s addr 0x0E) := by
  obtain ⟨⟨u1, u2, u3, u4, u5⟩, ⟨e1, e2, e3, e4, e5, e6⟩, ⟨m1, m2, m3, m4, m5, m6, m7⟩,
    ⟨v1, v2, v3, v4, v5, v6, v7, v8⟩⟩ := cmdsDistinct_ne k hk
  refine ⟨?_, ?_, ?_, ?_⟩
  · simp only [s3c_onenand_command, e1, e2, e3, e4, e5, e6, or_self, if_false, if_true,
      command_mem_addr, CMD_MAP_10_mem_addr, afterControlWrite, s3c_write_cmd, writel,
      ONENAND_ERASE_START]
    rfl
  · simp only [s3c_onenand_command, m1, m2, m3, m4, m5, m6, m7, or_self, if_false, if_true,
      command_mem_addr, CMD_MAP_10_mem_addr, afterControlWrite, s3c_write_cmd, writel,
      ONENAND_MULTI_ERASE_SET]
    rfl
  · simp only [s3c_onenand_command, v1, v2, v3, v4, v5, v6, v7, v8, or_self, if_false, if_true,
      command_mem_addr, CMD_MAP_10_mem_addr, afterControlWrite, s3c_write_cmd, writel,
      ONENAND_ERASE_VERIFY]
    rfl
  · simp only [s3c_onenand_command, u1, u2, u3, u4, u5, or_self, if_false, if_true,
      command_mem_addr, CMD_MAP_10_mem_addr, afterControlWrite, s3c_write_cmd, writel,
      ONENAND_UNLOCK_ALL]
    rfl

/-- Witness for C5: the four control commands at byte offset `0x2A0800` of a
chip with 2 KiB pages, with the command codes of the U-Boot headers. -/
theorem s3c_onenand_command_control_witness :
    s3c_onenand_command uboot .S3C64XX (hwConst 0 0) uboot.ONENAND_CMD_ERASE 0x2A0800 0 idle2k
      = some (0, afterControlWrite .S3C64XX idle2k 0x2A0800 0x03) ∧
    s3c_onenand_command uboot .S3C64XX (hwConst 0 0) uboot.ONENAND_CMD_MULTIBLOCK_ERASE 0x2A0800 0
        idle2k
      = some (0, afterControlWrite .S3C64XX idle2k 0x2A0800 0x01) ∧
    s3c_onenand_command uboot .S3C64XX (hwConst 0 0) uboot.ONENAND_CMD_ERASE_VERIFY 0x2A0800 0
        idle2k
      = some (0, afterControlWrite .S3C64XX idle2k 0x2A0800 0x15) ∧
    s3c_onenand_command uboot .S3C64XX (hwConst 0 0) uboot.ONENAND_CMD_UNLOCK_ALL 0x2A0800 0
        idle2k
      = some (0, afterControlWrite .S3C64XX idle2k 0x2A0800 0x0E) :=
  s3c_onenand_command_control uboot .S3C64XX (hwConst 0 0) 0x2A0800 0 idle2k
    (by unfold Hdr.cmdsDistinct; decide)

/-! ### Lock and unlock -/

theorem ahbWrites_append (l₁ l₂ : List Event) :
    ahbWrites (l₁ ++ l₂) = ahbWrites l₁ ++ ahbWrites l₂ := by
  simp [ahbWrites, List.filterMap_append]

theorem ahbReads_append (l₁ l₂ : List Event) :
    ahbReads (l₁ ++ l₂) = ahbReads l₁ ++ ahbReads l₂ := by
  simp [ahbReads, List.filterMap_append]

theorem poll_ahbWrites (hw : Hw) (flags n : Nat) (s : State) :
    ahbWrites (poll hw flags n s).trace = ahbWrites s.trace := by
  induction n generalizing s with
  | zero => rfl
  | succ n ih =>
    simp only [poll, readl]
    split
    · simp [ahbWrites_append, ahbWrites]
    · rw [ih]
      simp [ahbWrites_append, ahbWrites]

theorem poll_ahbReads (hw : Hw) (flags n : Nat) (s : State) :
    ahbReads (poll hw flags n s).trace = ahbReads s.trace := by
  induction n generalizing s with
  | zero => rfl
  | succ n ih =>
    simp only [poll, readl]
    split
    · simp [ahbReads_append, ahbReads]
    · rw [ih]
      simp [ahbReads_append, ahbReads]

/-- The accesses `s3c_onenand_wait` makes: the polling loop, the re-read and
acknowledge of the status, and the ECC status read when `LOAD_CMP` is set. -/
theorem s3c_onenand_wait_trace (k : Hdr) (hw : Hw) (state : Nat) (s : State) :
    (s3c_onenand_wait k hw state s).2.trace =
      waitAcked k hw state s ++
        (if waitStat k hw state s &&& k.LOAD_CMP ≠ 0 then
          [Event.rd (.reg .ecc_err_stat) (waitEcc k hw state s)]
        else []) := by
  rw [s3c_onenand_wait_eq]
  split
  · split
    · rfl
    · split <;> rfl
  · split <;> simp

/-- The function `s3c_onenand_wait` changes nothing but the trace and the
failed-ECC counter. -/
theorem s3c_onenand_wait_chip (k : Hdr) (hw : Hw) (state : Nat) (s : State) :
    (s3c_onenand_wait k hw state s).2.chip = s.chip := by
  rw [s3c_onenand_wait_eq]
  split
  · split
    · rfl
    · split <;> rfl
  · split <;> rfl

theorem s3c_onenand_wait_ahbWrites (k : Hdr) (hw : Hw) (state : Nat) (s : State) :
    ahbWrites (s3c_onenand_wait k hw state s).2.trace = ahbWrites s.trace := by
  rw [s3c_onenand_wait_trace, waitAcked, ahbWrites_append, ahbWrites_append, poll_ahbWrites]
  split <;> simp [ahbWrites]

theorem s3c_onenand_wait_ahbReads (k : Hdr) (hw : Hw) (state : Nat) (s : State) :
    ahbReads (s3c_onenand_wait k hw state s).2.trace = ahbReads s.trace := by
  rw [s3c_onenand_wait_trace, waitAcked, ahbReads_append, ahbReads_append, poll_ahbReads]
  split <;> simp [ahbReads]

theorem s3c_write_cmd_twice (s : State) (w0 w1 a0 a1 : Nat) :
    s3c_write_cmd w1 a1 (s3c_write_cmd w0 a0 s) =
      { s with trace := s.trace ++ [Event.wr (.ahb a0) (u32 w0), Event.wr (.ahb a1) (u32 w1)] } := by
  simp [s3c_write_cmd, writel]

/-- The function `s3c_onenand_do_lock_cmd` makes its two control writes for the
blocks `start` and `end` it computes and then waits for the locking state. -/
theorem s3c_onenand_do_lock_cmd_eq (k : Hdr) (soc : Soc) (hw : Hw) (s : State)
    (ofs len cmd : Nat) :
    s3c_onenand_do_lock_cmd k soc hw ofs len cmd s =
      (s3c_onenand_wait k hw k.FL_LOCKING
        (if cmd = k.ONENAND_CMD_LOCK then
          afterRangeWrites soc s (u32 (ofs >>> s.chip.erase_shift)) ONENAND_LOCK_START
            (u32 (u32 (ofs >>> s.chip.erase_shift) + (len >>> s.chip.erase_shift) + (2 ^ 32 - 1)))
            ONENAND_LOCK_END
        else
          afterRangeWrites soc s (u32 (ofs >>> s.chip.erase_shift)) ONENAND_UNLOCK_START
            (u32 (u32 (ofs >>> s.chip.erase_shift) + (len >>> s.chip.erase_shift) + (2 ^ 32 - 1)))
            ONENAND_UNLOCK_END)).2 := by
  simp only [s3c_onenand_do_lock_cmd, s3c_write_cmd_twice, afterRangeWrites]
  split <;> rfl

/-- The state after the two range writes depends on the blocks only through
their packed addresses. -/
theorem afterRangeWrites_congr (soc : Soc) (s : State) {b0 b0' b1 b1' : Nat} (w0 w1 : Nat)
    (h0 : u32 b0 = u32 b0') (h1 : u32 b1 = u32 b1') :
    afterRangeWrites soc s b0 w0 b1 w1 = afterRangeWrites soc s b0' w0 b1' w1 := by
  simp only [afterRangeWrites, s3c_mem_addr_congr soc h0 rfl 0, s3c_mem_addr_congr soc h1 rfl 0]

theorem afterRangeWrites_ahbWrites (soc : Soc) (s : State) (b0 w0 b1 w1 : Nat) :
    ahbWrites (afterRangeWrites soc s b0 w0 b1 w1).trace = ahbWrites s.trace ++
      [(CMD_MAP_10 soc (s3c_mem_addr soc b0 0 0), w0),
        (CMD_MAP_10 soc (s3c_mem_addr soc b1 0 0), w1)] := by
  simp [afterRangeWrites, ahbWrites_append, ahbWrites]

theorem afterRangeWrites_ahbReads (soc : Soc) (s : State) (b0 w0 b1 w1 : Nat) :
    ahbReads (afterRangeWrites soc s b0 w0 b1 w1).trace = ahbReads s.trace := by
  simp [afterRangeWrites, ahbReads_append, ahbReads]

/-- C10: for every block range `[first, last]` with `first ≤ last`, given as the
byte offset `first << erase_shift` and the length
`(last - first + 1) << erase_shift`, `s3c_onenand_do_lock_cmd` with command
`LOCK` issues exactly two control writes, both into window 10: `LOCK_START` at
`CMD_MAP_10(mem_addr(first, 0, 0))` and then `LOCK_END` at
`CMD_MAP_10(mem_addr(last, 0, 0))`; what follows is the wait for the locking
state, which reads no window and writes none.  For a single block, `first =
last`, both writes use the packed address of that block. -/
theorem s3c_onenand_do_lock_cmd_lock (k : Hdr) (soc : Soc) (hw : Hw) (s : State)
    (first last : Nat) (h : first ≤ last) :
    s3c_onenand_do_lock_cmd k soc hw (first <<< s.chip.erase_shift)
        ((last - first + 1) <<< s.chip.erase_shift) k.ONENAND_CMD_LOCK s =
      (s3c_onenand_wait k hw k.FL_LOCKING
        (afterRangeWrites soc s first ONENAND_LOCK_START last ONENAND_LOCK_END)).2 ∧
    ahbWrites (s3c_onenand_do_lock_cmd k soc hw (first <<< s.chip.erase_shift)
        ((last - first + 1) <<< s.chip.erase_shift) k.ONENAND_CMD_LOCK s).trace =
      ahbWrites s.trace ++
        [(CMD_MAP_10 soc (s3c_mem_addr soc first 0 0), ONENAND_LOCK_START),
          (CMD_MAP_10 soc (s3c_mem_addr soc last 0 0), ONENAND_LOCK_END)] ∧
    ahbReads (s3c_onenand_do_lock_cmd k soc hw (first <<< s.chip.erase_shift)
        ((last - first + 1) <<< s.chip.erase_shift) k.ONENAND_CMD_LOCK s).trace =
      ahbReads s.trace := by
  have h0 : u32 (u32 ((first <<< s.chip.erase_shift) >>> s.chip.erase_shift)) = u32 first := by
    rw [Nat.shiftLeft_shiftRight, u32_u32]
  have h1 : u32 (u32 (u32 ((first <<< s.chip.erase_shift) >>> s.chip.erase_shift)
      + (((last - first + 1) <<< s.chip.erase_shift) >>> s.chip.erase_shift) + (2 ^ 32 - 1)))
      = u32 last := by
    rw [Nat.shiftLeft_shiftRight, Nat.shiftLeft_shiftRight, u32_u32]
    simp only [u32]
    omega
  have e : s3c_onenand_do_lock_cmd k soc hw (first <<< s.chip.erase_shift)
      ((last - first + 1) <<< s.chip.erase_shift) k.ONENAND_CMD_LOCK s =
      (s3c_onenand_wait k hw k.FL_LOCKING
        (afterRangeWrites soc s first ONENAND_LOCK_START last ONENAND_LOCK_END)).2 := by
    rw [s3c_onenand_do_lock_cmd_eq, if_pos rfl, afterRangeWrites_congr soc s _ _ h0 h1]
  rw [e]
  exact ⟨rfl, by rw [s3c_onenand_wait_ahbWrites, afterRangeWrites_ahbWrites],
    by rw [s3c_onenand_wait_ahbReads, afterRangeWrites_ahbReads]⟩

/-- Witness for C10: a lock of the single block 5, blocks `[5, 5]`, on a chip
with 128 KiB blocks: byte offset `5 << 17`, length `1 << 17`. -/
theorem s3c_onenand_do_lock_cmd_lock_witness :
    s3c_onenand_do_lock_cmd uboot .S3C64XX (hwConst 0 0) (5 <<< idle2k.chip.erase_shift)
        ((5 - 5 + 1) <<< idle2k.chip.erase_shift) uboot.ONENAND_CMD_LOCK idle2k =
      (s3c_onenand_wait uboot (hwConst 0 0) uboot.FL_LOCKING
        (afterRangeWrites .S3C64XX idle2k 5 ONENAND_LOCK_START 5 ONENAND_LOCK_END)).2 ∧
    ahbWrites (s3c_onenand_do_lock_cmd uboot .S3C64XX (hwConst 0 0)
        (5 <<< idle2k.chip.erase_shift) ((5 - 5 + 1) <<< idle2k.chip.erase_shift)
        uboot.ONENAND_CMD_LOCK idle2k).trace =
      ahbWrites idle2k.trace ++
        [(CMD_MAP_10 .S3C64XX (s3c_mem_addr .S3C64XX 5 0 0), ONENAND_LOCK_START),
          (CMD_MAP_10 .S3C64XX (s3c_mem_addr .S3C64XX 5 0 0), ONENAND_LOCK_END)] ∧
    ahbReads (s3c_onenand_do_lock_cmd uboot .S3C64XX (hwConst 0 0)
        (5 <<< idle2k.chip.erase_shift) ((5 - 5 + 1) <<< idle2k.chip.erase_shift)
        uboot.ONENAND_CMD_LOCK idle2k).trace =
      ahbReads idle2k.trace :=
  s3c_onenand_do_lock_cmd_lock uboot .S3C64XX (hwConst 0 0) idle2k 5 5 (by decide)

theorem s3c_onenand_check_lock_status_block_chip (k : Hdr) (soc : Soc) (hw : Hw) (s : State)
    (block : Nat) : (s3c_onenand_check_lock_status_block k soc hw s block).chip = s.chip := by
  simp only [s3c_onenand_check_lock_status_block, s3c_read_cmd, readl, writel]
  split <;> rfl

theorem s3c_onenand_check_lock_status_block_ahbWrites (k : Hdr) (soc : Soc) (hw : Hw)
    (s : State) (block : Nat) :
    ahbWrites (s3c_onenand_check_lock_status_block k soc hw s block).trace
      = ahbWrites s.trace := by
  simp only [s3c_onenand_check_lock_status_block, s3c_read_cmd, readl, writel]
  split <;> simp [ahbWrites_append, ahbWrites]

theorem s3c_onenand_check_lock_status_block_ahbReads (k : Hdr) (soc : Soc) (hw : Hw)
    (s : State) (block : Nat) :
    ahbReads (s3c_onenand_check_lock_status_block k soc hw s block).trace
      = ahbReads s.trace ++ [CMD_MAP_01 soc (s3c_mem_addr soc block 0 0)] := by
  have hb : s3c_mem_addr soc (u32 block) 0 0 = s3c_mem_addr soc block 0 0 :=
    s3c_mem_addr_congr soc (u32_u32 _) rfl 0
  simp only [s3c_onenand_check_lock_status_block, s3c_read_cmd, readl, writel, hb]
  split <;> simp [ahbReads_append, ahbReads]

/-- The scan loop over a list of blocks writes to no window and reads the
window-01 address of each block once, in order. -/
theorem check_lock_status_foldl (k : Hdr) (soc : Soc) (hw : Hw) (l : List Nat) (s : State) :
    ahbWrites (l.foldl (s3c_onenand_check_lock_status_block k soc hw) s).trace
      = ahbWrites s.trace ∧
    ahbReads (l.foldl (s3c_onenand_check_lock_status_block k soc hw) s).trace
      = ahbReads s.trace ++ l.map (fun b => CMD_MAP_01 soc (s3c_mem_addr soc b 0 0)) := by
  induction l generalizing s with
  | nil => simp
  | cons b l ih =>
    rw [List.foldl_cons, (ih _).1, (ih _).2, s3c_onenand_check_lock_status_block_ahbWrites,
      s3c_onenand_check_lock_status_block_ahbReads]
    simp

/-- C9: when the chip's options lack `ONENAND_HAS_UNLOCK_ALL` (and the chip has
at least one block), `s3c_onenand_unlock_all` never writes the `UNLOCK_ALL`
control word: it makes the two control writes `UNLOCK_START` (`0x08`) to the
window-10 address of block 0 and then `UNLOCK_END` (`0x09`) to the window-10
address of the last block `(chipsize >> erase_shift) - 1`, then waits for the
locking state, then runs the lock-status scan `s3c_onenand_check_lock_status`;
these two are its only window writes, and its window reads are the one window-01
probe read for each of the `chipsize >> erase_shift` blocks, in block order. -/
theorem s3c_onenand_unlock_all_fallback (k : Hdr) (soc : Soc) (hw : Hw) (s : State)
    (hul : k.ONENAND_CMD_UNLOCK ≠ k.ONENAND_CMD_LOCK)
    (hcap : s.chip.options &&& k.ONENAND_HAS_UNLOCK_ALL = 0)
    (hn : 0 < s.chip.chipsize >>> s.chip.erase_shift) :
    ∃ r, s3c_onenand_unlock_all k soc hw s = some r ∧
      r = s3c_onenand_check_lock_status k soc hw
        (s3c_onenand_wait k hw k.FL_LOCKING
          (afterRangeWrites soc
            { s with
              chip := { s.chip with subpagesize := s.mtd.writesize }
              mtd := { s.mtd with subpage_sft := 0 } }
            0 ONENAND_UNLOCK_START
            ((s.chip.chipsize >>> s.chip.erase_shift) - 1) ONENAND_UNLOCK_END)).2 ∧
      ahbWrites r.trace = ahbWrites s.trace ++
        [(CMD_MAP_10 soc (s3c_mem_addr soc 0 0 0), 0x08),
          (CMD_MAP_10 soc (s3c_mem_addr soc ((s.chip.chipsize >>> s.chip.erase_shift) - 1) 0 0),
            0x09)] ∧
      ahbReads r.trace = ahbReads s.trace ++
        (List.range (s.chip.chipsize >>> s.chip.erase_shift)).map
          (fun b => CMD_MAP_01 soc (s3c_mem_addr soc b 0 0)) := by
  have h0 : u32 (u32 (0 >>> s.chip.erase_shift)) = u32 0 := by
    rw [Nat.zero_shiftRight, u32_u32]
  have h1 : u32 (u32 (u32 (0 >>> s.chip.erase_shift)
      + (s.chip.chipsize >>> s.chip.erase_shift) + (2 ^ 32 - 1)))
      = u32 ((s.chip.chipsize >>> s.chip.erase_shift) - 1) := by
    rw [Nat.zero_shiftRight, u32_u32]
    simp only [u32]
    omega
  have hc : ¬ (s.chip.options &&& k.ONENAND_HAS_UNLOCK_ALL ≠ 0) := fun h => h hcap
  refine ⟨_, ?_, rfl, ?_, ?_⟩
  · simp only [s3c_onenand_unlock_all, if_neg hc, s3c_onenand_do_lock_cmd_eq, if_neg hul]
    rw [afterRangeWrites_congr soc _ _ _ h0 h1]
  · simp only [s3c_onenand_check_lock_status]
    rw [(check_lock_status_foldl k soc hw _ _).1, s3c_onenand_wait_ahbWrites,
      afterRangeWrites_ahbWrites]
    rfl
  · simp only [s3c_onenand_check_lock_status]
    rw [(check_lock_status_foldl k soc hw _ _).2, s3c_onenand_wait_ahbReads,
      afterRangeWrites_ahbReads, s3c_onenand_wait_chip]
    rfl

/-! ### Bulk transfers -/

theorem store_append {mem m1 : List Byte} {pos : Nat} {a : List Byte}
    (h1 : store mem pos a = some m1) (b : List Byte) :
    store m1 (pos + a.length) b = store mem pos (a ++ b) := by
  have hl := store_length h1
  by_cases hfit : pos + a.length + b.length ≤ mem.length
  · have hb2 : pos + a.length + b.length ≤ m1.length := by omega
    have hb3 : pos + (a ++ b).length ≤ mem.length := by
      rw [List.length_append]; omega
    obtain ⟨m2, h2⟩ : ∃ m2, store m1 (pos + a.length) b = some m2 := ⟨_, store_eq_some hb2⟩
    obtain ⟨m3, h3⟩ : ∃ m3, store mem pos (a ++ b) = some m3 := ⟨_, store_eq_some hb3⟩
    rw [h2, h3]
    congr 1
    apply List.ext_getElem?
    intro i
    by_cases c1 : i < pos
    · rw [store_getElem?_lt h2 (by omega), store_getElem?_lt h1 c1, store_getElem?_lt h3 c1]
    · by_cases c2 : i < pos + a.length
      · have e : i = pos + (i - pos) := by omega
        rw [store_getElem?_lt h2 c2]
        rw [e, store_getElem?_mid h1 (by omega),
          store_getElem?_mid h3 (by rw [List.length_append]; omega),
          List.getElem?_append_left (by omega)]
      · by_cases c3 : i < pos + a.length + b.length
        · have e : i = pos + a.length + (i - pos - a.length) := by omega
          have e' : i = pos + (i - pos) := by omega
          rw [e, store_getElem?_mid h2 (by omega)]
          rw [← e, e', store_getElem?_mid h3 (by rw [List.length_append]; omega),
            List.getElem?_append_right (by omega)]
          congr 1
          omega
        · rw [store_getElem?_ge h2 (by omega), store_getElem?_ge h1 (by omega),
            store_getElem?_ge h3 (by rw [List.length_append]; omega)]
  · rw [store_eq_none (by omega), store_eq_none (by rw [List.length_append]; omega)]

theorem wordBytes_length (w : Nat) : (wordBytes w).length = 4 := rfl

theorem readWords_length (hw : Hw) (addr count : Nat) (tr : List Event) :
    (readWords hw addr count tr).length = count := by
  induction count generalizing tr with
  | zero => rfl
  | succ n ih => simp [readWords, ih]

theorem bytesWord_wordBytes (w : Nat) (h : w < 2 ^ 32) : bytesWord (wordBytes w) = w := by
  simp only [bytesWord, wordBytes, List.foldr_cons, List.foldr_nil, Fin.ofNat,
    Nat.shiftRight_eq_div_pow]
  omega

theorem readWords_lt (hw : Hw) (addr count : Nat) (tr : List Event) :
    ∀ w ∈ readWords hw addr count tr, w < 2 ^ 32 := by
  induction count generalizing tr with
  | zero => intro w h; cases h
  | succ n ih =>
    intro w h
    simp only [readWords, List.mem_cons] at h
    rcases h with h | h
    · rw [h]; exact Nat.mod_lt _ (by decide)
    · exact ih _ w h

theorem flatMap_wordBytes_length (ws : List Nat) :
    (ws.flatMap wordBytes).length = 4 * ws.length := by
  induction ws with
  | nil => rfl
  | cons w ws ih =>
    rw [List.flatMap_cons, List.length_append, ih, wordBytes_length, List.length_cons]
    omega

theorem Region.set_get (s : State) (r : Region) : r.set s (r.get s) = s := by
  cases r <;> rfl

theorem Region.set_set (s : State) (r : Region) (m1 m2 : List Byte) (tr : List Event) :
    r.set { r.set s m1 with trace := tr } m2 = r.set { s with trace := tr } m2 := by
  cases r <;> rfl

/-- The loop of `s3c_onenand_read`, when the `count` words fit into the region
at `pos`: the words read are stored one after the other, least significant byte
first, and the reads are the only accesses made. -/
theorem s3c_onenand_read_eq (hw : Hw) (addr : Nat) (r : Region) (count pos : Nat) (s : State)
    (hfit : pos + 4 * count ≤ (r.get s).length) :
    ∃ mem', store (r.get s) pos ((readWords hw addr count s.trace).flatMap wordBytes)
        = some mem' ∧
      s3c_onenand_read hw addr r count pos s =
        some (r.set { s with trace := s.trace ++
          (readWords hw addr count s.trace).map (Event.rd (.ahb addr)) } mem') := by
  induction count generalizing pos s with
  | zero =>
    refine ⟨r.get s, ?_, ?_⟩
    · have hb : pos + ([] : List Byte).length ≤ (r.get s).length := by simpa using hfit
      rw [readWords, List.flatMap_nil, store_eq_some hb]
      simp
    · simp only [s3c_onenand_read, readWords, List.map_nil, List.append_nil]
      exact congrArg some (Region.set_get s r).symm
  | succ n ih =>
    have hb : pos + (wordBytes (u32 (hw.dev s.trace (.ahb addr)))).length ≤ (r.get s).length := by
      rw [wordBytes_length]; omega
    obtain ⟨m1, h1⟩ : ∃ m1, store (r.get s) pos (wordBytes (u32 (hw.dev s.trace (.ahb addr))))
        = some m1 := ⟨_, store_eq_some hb⟩
    have hg : r.get { s with trace := s.trace ++
        [Event.rd (.ahb addr) (u32 (hw.dev s.trace (.ahb addr)))] } = r.get s := by
      cases r <;> rfl
    have hfit' : pos + 4 + 4 * n ≤ (r.get (r.set { s with trace := s.trace ++
        [Event.rd (.ahb addr) (u32 (hw.dev s.trace (.ahb addr)))] } m1)).length := by
      rw [Region.get_set_same, store_length h1]; omega
    obtain ⟨m2, h2, h3⟩ := ih (pos + 4) _ hfit'
    have htr : (r.set { s with trace := s.trace ++
        [Event.rd (.ahb addr) (u32 (hw.dev s.trace (.ahb addr)))] } m1).trace
        = s.trace ++ [Event.rd (.ahb addr) (u32 (hw.dev s.trace (.ahb addr)))] := by
      cases r <;> rfl
    rw [Region.get_set_same, htr] at h2
    rw [htr] at h3
    refine ⟨m2, ?_, ?_⟩
    · rw [readWords, List.flatMap_cons, ← store_append h1, wordBytes_length]
      exact h2
    · simp only [s3c_onenand_read, s3c_read_cmd, readl, hg, h1]
      rw [h3, Region.set_set]
      simp [readWords]

/-- The effect of the loop of `s3c_onenand_read` on the state, when the words
fit: the trace grows by the reads, the region holds the words stored at `pos`,
and the other region and the descriptors are unchanged. -/
theorem s3c_onenand_read_spec (hw : Hw) (addr : Nat) (r : Region) (count pos : Nat) (s : State)
    (hfit : pos + 4 * count ≤ (r.get s).length) :
    ∃ s', s3c_onenand_read hw addr r count pos s = some s' ∧
      s'.trace = s.trace ++ (readWords hw addr count s.trace).map (Event.rd (.ahb addr)) ∧
      store (r.get s) pos ((readWords hw addr count s.trace).flatMap wordBytes)
        = some (r.get s') ∧
      s'.chip = s.chip ∧ s'.mtd = s.mtd ∧
      (∀ r', r' ≠ r → r'.get s' = r'.get s) := by
  obtain ⟨mem', hst, hrd⟩ := s3c_onenand_read_eq hw addr r count pos s hfit
  refine ⟨_, hrd, ?_, ?_, ?_, ?_, ?_⟩
  · cases r <;> rfl
  · rw [Region.get_set_same]; exact hst
  · cases r <;> rfl
  · cases r <;> rfl
  · intro r' hr
    cases r <;> cases r' <;> first | rfl | exact absurd rfl hr

/-- The loop of `s3c_onenand_read` has no result when its first word already
lies outside the region. -/
theorem s3c_onenand_read_none (hw : Hw) (addr : Nat) (r : Region) (count pos : Nat) (s : State)
    (hpos : (r.get s).length < pos + 4) :
    s3c_onenand_read hw addr r (count + 1) pos s = none := by
  have hg : r.get { s with trace := s.trace ++
      [Event.rd (.ahb addr) (u32 (hw.dev s.trace (.ahb addr)))] } = r.get s := by
    cases r <;> rfl
  have hn : store (r.get s) pos (wordBytes (u32 (hw.dev s.trace (.ahb addr)))) = none :=
    store_eq_none (by rw [wordBytes_length]; omega)
  simp only [s3c_onenand_read, s3c_read_cmd, readl, hg, hn]

theorem command_window01 (soc : Soc) (s : State) (addr : Nat) :
    CMD_MAP_01 soc (s3c_mem_addr soc (u32 (addr >>> s.chip.erase_shift))
      (u32 (addr >>> s.chip.page_shift) &&& s.chip.page_mask) 0) = window01 soc s addr := by
  rw [command_mem_addr, CMD_MAP_01_mem_addr]
  rfl

/-- The `READ` case of `s3c_onenand_command`: the current half is switched and
the loop of `s3c_onenand_read` runs on the main buffer at the new half. -/
theorem s3c_onenand_command_read_eq (k : Hdr) (soc : Soc) (hw : Hw) (addr len : Nat) (s : State) :
    s3c_onenand_command k soc hw k.ONENAND_CMD_READ addr len s =
      (s3c_onenand_read hw (window01 soc s addr) .page_buf (s.mtd.writesize >>> 2)
        (if s.chip.bufferram_index ^^^ 1 ≠ 0 then 4 * (s.chip.writesize >>> 2) else 0)
        { s with chip := { s.chip with bufferram_index := s.chip.bufferram_index ^^^ 1 } }).map
        (fun s => (0, s)) := by
  simp only [s3c_onenand_command, true_or, if_true, command_window01,
    ONENAND_SET_NEXT_BUFFERRAM, ONENAND_CURRENT_BUFFERRAM]

/-- C3: the buffer half filled by a `READ` is the half a following buffer read
sees.  For every address and either starting half index, when `writesize` is a
multiple of 4, the chip's and the mtd's `writesize` agree and
`2 * writesize ≤ 4096` (the size of `page_buf`), `s3c_onenand_command` with
`READ` returns 0, its accesses are the `writesize / 4` reads of the window-01
address, and a following `onenand_read_bufferram` of the main-data area at
offset 0 for `writesize` bytes returns exactly the words read, in transfer
order, each word as its four bytes in memory, from which the word is recovered;
the other main-data half and the whole spare region are unchanged by the
command. -/
theorem s3c_onenand_command_read (k : Hdr) (soc : Soc) (hw : Hw) (addr len : Nat) (s : State)
    (hidx : s.chip.bufferram_index ≤ 1)
    (hmul : s.mtd.writesize % 4 = 0)
    (hagree : s.chip.writesize = s.mtd.writesize)
    (hcap : s.page_buf.length = 4096)
    (h2 : 2 * s.mtd.writesize ≤ 4096) :
    ∃ s', s3c_onenand_command k soc hw k.ONENAND_CMD_READ addr len s = some (0, s') ∧
      s'.trace = s.trace ++
        (readWords hw (window01 soc s addr) (s.mtd.writesize / 4) s.trace).map
          (Event.rd (.ahb (window01 soc s addr))) ∧
      onenand_read_bufferram k s' k.ONENAND_DATARAM 0 s.mtd.writesize =
        some ((readWords hw (window01 soc s addr) (s.mtd.writesize / 4) s.trace).flatMap
          wordBytes, 0) ∧
      (readWords hw (window01 soc s addr) (s.mtd.writesize / 4) s.trace).length
        = s.mtd.writesize / 4 ∧
      (readWords hw (window01 soc s addr) (s.mtd.writesize / 4) s.trace).map
          (fun w => bytesWord (wordBytes w))
        = readWords hw (window01 soc s addr) (s.mtd.writesize / 4) s.trace ∧
      (∀ i, s.chip.bufferram_index * s.mtd.writesize ≤ i →
        i < s.chip.bufferram_index * s.mtd.writesize + s.mtd.writesize →
        s'.page_buf[i]? = s.page_buf[i]?) ∧
      s'.oob_buf = s.oob_buf := by
  have hsh : s.mtd.writesize >>> 2 = s.mtd.writesize / 4 := Nat.shiftRight_eq_div_pow _ 2
  have hq : 4 * (s.mtd.writesize / 4) = s.mtd.writesize := by omega
  have hlen : ((readWords hw (window01 soc s addr) (s.mtd.writesize / 4) s.trace).flatMap
      wordBytes).length = s.mtd.writesize := by
    rw [flatMap_wordBytes_length, readWords_length, hq]
  have hdec : (readWords hw (window01 soc s addr) (s.mtd.writesize / 4) s.trace).map
      (fun w => bytesWord (wordBytes w))
      = readWords hw (window01 soc s addr) (s.mtd.writesize / 4) s.trace := by
    conv_rhs => rw [← List.map_id (readWords hw (window01 soc s addr) (s.mtd.writesize / 4) s.trace)]
    exact List.map_congr_left fun w hw' => bytesWord_wordBytes w (readWords_lt _ _ _ _ w hw')
  have hi : s.chip.bufferram_index = 0 ∨ s.chip.bufferram_index = 1 := by omega
  rw [s3c_onenand_command_read_eq, hagree, hsh, hq]
  rcases hi with hi | hi
  · have hx : s.chip.bufferram_index ^^^ 1 = 1 := by rw [hi]; rfl
    rw [hx, if_pos (by decide)]
    obtain ⟨mem', hst, hrd⟩ := s3c_onenand_read_eq hw (window01 soc s addr) .page_buf
      (s.mtd.writesize / 4) s.mtd.writesize
      { s with chip := { s.chip with bufferram_index := 1 } }
      (by show _ ≤ s.page_buf.length; omega)
    rw [hrd]
    refine ⟨_, rfl, rfl, ?_, readWords_length _ _ _ _, hdec, ?_, rfl⟩
    · have hld := load_store hst
      rw [hlen] at hld
      simp only [onenand_read_bufferram, s3c_get_bufferram, ONENAND_CURRENT_BUFFERRAM,
        Region.set, Region.get, if_true, hagree, Int.add_zero, Int.toNat_ofNat]
      rw [if_neg (by omega)]
      exact congrArg (Option.map _) hld
    · intro i h1 h2
      rw [hi] at h1 h2
      exact store_getElem?_lt hst (by omega)
  · have hx : s.chip.bufferram_index ^^^ 1 = 0 := by rw [hi]; rfl
    rw [hx, if_neg (by decide)]
    obtain ⟨mem', hst, hrd⟩ := s3c_onenand_read_eq hw (window01 soc s addr) .page_buf
      (s.mtd.writesize / 4) 0
      { s with chip := { s.chip with bufferram_index := 0 } }
      (by show _ ≤ s.page_buf.length; omega)
    rw [hrd]
    refine ⟨_, rfl, rfl, ?_, readWords_length _ _ _ _, hdec, ?_, rfl⟩
    · have hld := load_store hst
      rw [hlen] at hld
      simp only [onenand_read_bufferram, s3c_get_bufferram, ONENAND_CURRENT_BUFFERRAM,
        Region.set, Region.get, if_true, Nat.zero_ne_one, if_false, Int.add_zero]
      rw [if_neg (by omega)]
      exact congrArg (Option.map _) hld
    · intro i h1 h2
      rw [hi] at h1 h2
      exact store_getElem?_ge hst (by rw [hlen]; omega)

/-- Witness for C3: a `READ` at byte offset `0x2A0800` on a chip with 2 KiB
pages, in the state `s3c_onenand_init` sets up, half 0 being current. -/
theorem s3c_onenand_command_read_witness :
    ∃ s', s3c_onenand_command uboot .S3C64XX (hwConst 0 0) uboot.ONENAND_CMD_READ 0x2A0800 0
        (s3c_onenand_init (chip2k 0) mtd2k 0) = some (0, s') ∧
      s'.trace = (s3c_onenand_init (chip2k 0) mtd2k 0).trace ++
        (readWords (hwConst 0 0) (window01 .S3C64XX (s3c_onenand_init (chip2k 0) mtd2k 0) 0x2A0800)
          ((s3c_onenand_init (chip2k 0) mtd2k 0).mtd.writesize / 4)
          (s3c_onenand_init (chip2k 0) mtd2k 0).trace).map
          (Event.rd (.ahb (window01 .S3C64XX (s3c_onenand_init (chip2k 0) mtd2k 0) 0x2A0800))) ∧
      onenand_read_bufferram uboot s' uboot.ONENAND_DATARAM 0
          (s3c_onenand_init (chip2k 0) mtd2k 0).mtd.writesize =
        some ((readWords (hwConst 0 0)
          (window01 .S3C64XX (s3c_onenand_init (chip2k 0) mtd2k 0) 0x2A0800)
          ((s3c_onenand_init (chip2k 0) mtd2k 0).mtd.writesize / 4)
          (s3c_onenand_init (chip2k 0) mtd2k 0).trace).flatMap wordBytes, 0) ∧
      (readWords (hwConst 0 0) (window01 .S3C64XX (s3c_onenand_init (chip2k 0) mtd2k 0) 0x2A0800)
          ((s3c_onenand_init (chip2k 0) mtd2k 0).mtd.writesize / 4)
          (s3c_onenand_init (chip2k 0) mtd2k 0).trace).length
        = (s3c_onenand_init (chip2k 0) mtd2k 0).mtd.writesize / 4 ∧
      (readWords (hwConst 0 0) (window01 .S3C64XX (s3c_onenand_init (chip2k 0) mtd2k 0) 0x2A0800)
          ((s3c_onenand_init (chip2k 0) mtd2k 0).mtd.writesize / 4)
          (s3c_onenand_init (chip2k 0) mtd2k 0).trace).map (fun w => bytesWord (wordBytes w))
        = readWords (hwConst 0 0)
          (window01 .S3C64XX (s3c_onenand_init (chip2k 0) mtd2k 0) 0x2A0800)
          ((s3c_onenand_init (chip2k 0) mtd2k 0).mtd.writesize / 4)
          (s3c_onenand_init (chip2k 0) mtd2k 0).trace ∧
      (∀ i, (s3c_onenand_init (chip2k 0) mtd2k 0).chip.bufferram_index *
          (s3c_onenand_init (chip2k 0) mtd2k 0).mtd.writesize ≤ i →
        i < (s3c_onenand_init (chip2k 0) mtd2k 0).chip.bufferram_index *
          (s3c_onenand_init (chip2k 0) mtd2k 0).mtd.writesize +
          (s3c_onenand_init (chip2k 0) mtd2k 0).mtd.writesize →
        s'.page_buf[i]? = (s3c_onenand_init (chip2k 0) mtd2k 0).page_buf[i]?) ∧
      s'.oob_buf = (s3c_onenand_init (chip2k 0) mtd2k 0).oob_buf :=
  s3c_onenand_command_read uboot .S3C64XX (hwConst 0 0) 0x2A0800 0
    (s3c_onenand_init (chip2k 0) mtd2k 0) (by decide) (by decide) (by decide)
    (s3c_onenand_init_page_buf_length _ _ _) (by decide)

/-- The `READ_OOB` case of `s3c_onenand_command`: the current half is switched,
the transfer-spare flag is written, the two loops of `s3c_onenand_read` run on
the main and the spare buffer, and 0 is written to `trans_spare`. -/
theorem s3c_onenand_command_readoob_eq (k : Hdr) (soc : Soc) (hw : Hw) (addr len : Nat)
    (s : State) (hne : k.ONENAND_CMD_READOOB ≠ k.ONENAND_CMD_READ) :
    s3c_onenand_command k soc hw k.ONENAND_CMD_READOOB addr len s =
      match s3c_onenand_read hw (window01 soc s addr) .page_buf (s.mtd.writesize >>> 2)
        (selectedMain s)
        (writel k.TSRF (.reg .trans_spare)
          { s with chip := { s.chip with bufferram_index := s.chip.bufferram_index ^^^ 1 } }) with
      | none => none
      | some s1 =>
        match s3c_onenand_read hw (window01 soc s addr) .oob_buf (s.mtd.oobsize >>> 2)
          (selectedSpare s) s1 with
        | none => none
        | some s2 => some (0, writel 0 (.reg .trans_spare) s2) := by
  simp only [s3c_onenand_command, true_or, or_true, if_true, if_neg hne, command_window01,
    ONENAND_SET_NEXT_BUFFERRAM, ONENAND_CURRENT_BUFFERRAM, selectedMain, selectedSpare]

/-- C8 (as amended): for every address and either buffer half, provided the two
transfers stay inside the allocated buffers (the selected main half plus the
`writesize / 4` words fit into `page_buf`, the selected spare half plus the
`oobsize / 4` words fit into `oob_buf`), `s3c_onenand_command` with `READ_OOB`
returns 0 and performs, in this order: a write of the transfer-spare flag `TSRF`
to `trans_spare`, `writesize / 4` word reads from the window-01 address stored
into the selected main-buffer half, `oobsize / 4` word reads from the same
window-01 address stored into the selected spare-buffer half, and last a write
of 0 to `trans_spare`; so the main-data transfer precedes the spare transfer
and the transfer-spare flag is clear when the command returns. -/
theorem s3c_onenand_command_readoob (k : Hdr) (soc : Soc) (hw : Hw) (addr len : Nat) (s : State)
    (hne : k.ONENAND_CMD_READOOB ≠ k.ONENAND_CMD_READ)
    (hm : selectedMain s + 4 * (s.mtd.writesize >>> 2) ≤ s.page_buf.length)
    (hs : selectedSpare s + 4 * (s.mtd.oobsize >>> 2) ≤ s.oob_buf.length) :
    ∃ s', s3c_onenand_command k soc hw k.ONENAND_CMD_READOOB addr len s = some (0, s') ∧
      s'.chip.bufferram_index = s.chip.bufferram_index ^^^ 1 ∧
      s'.trace = s.trace ++ [Event.wr (.reg .trans_spare) (u32 k.TSRF)] ++
        (oobMainWords k soc hw s addr).map (Event.rd (.ahb (window01 soc s addr))) ++
        (oobSpareWords k soc hw s addr).map (Event.rd (.ahb (window01 soc s addr))) ++
        [Event.wr (.reg .trans_spare) 0] ∧
      (oobMainWords k soc hw s addr).length = s.mtd.writesize / 4 ∧
      (oobSpareWords k soc hw s addr).length = s.mtd.oobsize / 4 ∧
      store s.page_buf (selectedMain s) ((oobMainWords k soc hw s addr).flatMap wordBytes)
        = some s'.page_buf ∧
      store s.oob_buf (selectedSpare s) ((oobSpareWords k soc hw s addr).flatMap wordBytes)
        = some s'.oob_buf := by
  rw [s3c_onenand_command_readoob_eq k soc hw addr len s hne]
  obtain ⟨s1, hrd1, htr1, hst1, hc1, _, ho1⟩ := s3c_onenand_read_spec hw (window01 soc s addr)
    .page_buf (s.mtd.writesize >>> 2) (selectedMain s)
    (writel k.TSRF (.reg .trans_spare)
      { s with chip := { s.chip with bufferram_index := s.chip.bufferram_index ^^^ 1 } }) hm
  have hoob : Region.oob_buf.get s1 = s.oob_buf := ho1 .oob_buf (by decide)
  obtain ⟨s2, hrd2, htr2, hst2, hc2, _, ho2⟩ := s3c_onenand_read_spec hw (window01 soc s addr)
    .oob_buf (s.mtd.oobsize >>> 2) (selectedSpare s) s1 (by rw [hoob]; exact hs)
  have hpage : Region.page_buf.get s2 = Region.page_buf.get s1 := ho2 .page_buf (by decide)
  rw [hrd1]
  simp only [hrd2]
  refine ⟨_, rfl, ?_, ?_, ?_, ?_, ?_, ?_⟩
  · show s2.chip.bufferram_index = _
    rw [hc2, hc1]
    rfl
  · show s2.trace ++ [Event.wr (.reg .trans_spare) (u32 0)] = _
    rw [htr2, htr1]
    rfl
  · rw [oobMainWords, readWords_length, Nat.shiftRight_eq_div_pow]
  · rw [oobSpareWords, readWords_length, Nat.shiftRight_eq_div_pow]
  · show _ = some (Region.page_buf.get s2)
    rw [hpage]
    exact hst1
  · show _ = some (Region.oob_buf.get s2)
    rw [← hst2, hoob, htr1]
    rfl

/-- Witness for C8 (as amended): a `READ_OOB` at byte offset `0x2A0800` on a
chip with 2 KiB pages, in the state `s3c_onenand_init` sets up, half 0 being
current. -/
theorem s3c_onenand_command_readoob_witness :
    ∃ s', s3c_onenand_command uboot .S5P (hwConst 0 0) uboot.ONENAND_CMD_READOOB 0x2A0800 0
        (s3c_onenand_init (chip2k 0) mtd2k 0) = some (0, s') ∧
      s'.chip.bufferram_index = (s3c_onenand_init (chip2k 0) mtd2k 0).chip.bufferram_index ^^^ 1 ∧
      s'.trace = (s3c_onenand_init (chip2k 0) mtd2k 0).trace ++
          [Event.wr (.reg .trans_spare) (u32 uboot.TSRF)] ++
        (oobMainWords uboot .S5P (hwConst 0 0) (s3c_onenand_init (chip2k 0) mtd2k 0) 0x2A0800).map
          (Event.rd (.ahb (window01 .S5P (s3c_onenand_init (chip2k 0) mtd2k 0) 0x2A0800))) ++
        (oobSpareWords uboot .S5P (hwConst 0 0) (s3c_onenand_init (chip2k 0) mtd2k 0) 0x2A0800).map
          (Event.rd (.ahb (window01 .S5P (s3c_onenand_init (chip2k 0) mtd2k 0) 0x2A0800))) ++
        [Event.wr (.reg .trans_spare) 0] ∧
      (oobMainWords uboot .S5P (hwConst 0 0) (s3c_onenand_init (chip2k 0) mtd2k 0)
        0x2A0800).length = (s3c_onenand_init (chip2k 0) mtd2k 0).mtd.writesize / 4 ∧
      (oobSpareWords uboot .S5P (hwConst 0 0) (s3c_onenand_init (chip2k 0) mtd2k 0)
        0x2A0800).length = (s3c_onenand_init (chip2k 0) mtd2k 0).mtd.oobsize / 4 ∧
      store (s3c_onenand_init (chip2k 0) mtd2k 0).page_buf
          (selectedMain (s3c_onenand_init (chip2k 0) mtd2k 0))
          ((oobMainWords uboot .S5P (hwConst 0 0) (s3c_onenand_init (chip2k 0) mtd2k 0)
            0x2A0800).flatMap wordBytes)
        = some s'.page_buf ∧
      store (s3c_onenand_init (chip2k 0) mtd2k 0).oob_buf
          (selectedSpare (s3c_onenand_init (chip2k 0) mtd2k 0))
          ((oobSpareWords uboot .S5P (hwConst 0 0) (s3c_onenand_init (chip2k 0) mtd2k 0)
            0x2A0800).flatMap wordBytes)
        = some s'.oob_buf :=
  s3c_onenand_command_readoob uboot .S5P (hwConst 0 0) 0x2A0800 0
    (s3c_onenand_init (chip2k 0) mtd2k 0) (by decide)
    (by rw [s3c_onenand_init_page_buf_length]; decide)
    (by rw [s3c_onenand_init_oob_buf_length]; decide)

/-- C8 fails as stated: on a chip with 4 KiB pages, in the state
`s3c_onenand_init` sets up with half 0 current, `READ_OOB` switches to half 1,
whose main-data pointer is byte 4096 of the 4096-byte `page_buf`; the first word
of the main-data transfer is stored outside the allocation and the command has
no result, so no data reaches the selected main-buffer half. -/
theorem s3c_onenand_command_readoob_counterexample :
    (s3c_onenand_init (chip4k 0) mtd4k 0).page_buf.length = 4096 ∧
    selectedMain (s3c_onenand_init (chip4k 0) mtd4k 0) = 4096 ∧
    s3c_onenand_command uboot .S5P (hwConst 0 0) uboot.ONENAND_CMD_READOOB 0x2A0800 0
      (s3c_onenand_init (chip4k 0) mtd4k 0) = none := by
  refine ⟨s3c_onenand_init_page_buf_length _ _ _, by decide, ?_⟩
  rw [s3c_onenand_command_readoob_eq uboot .S5P (hwConst 0 0) 0x2A0800 0 _ (by decide)]
  have hc : (s3c_onenand_init (chip4k 0) mtd4k 0).mtd.writesize >>> 2 = 1023 + 1 := by decide
  have hp : selectedMain (s3c_onenand_init (chip4k 0) mtd4k 0) = 4096 := by decide
  rw [hc, hp, s3c_onenand_read_none]
  show (s3c_onenand_init (chip4k 0) mtd4k 0).page_buf.length < 4096 + 4
  rw [s3c_onenand_init_page_buf_length]
  decide

/-- Witness for C9: the chip with 2 KiB pages and 1024 blocks, whose options
are 0, so without the unlock-all capability. -/
theorem s3c_onenand_unlock_all_fallback_witness :
    ∃ r, s3c_onenand_unlock_all uboot .S3C64XX (hwConst 0 0) idle2k = some r ∧
      r = s3c_onenand_check_lock_status uboot .S3C64XX (hwConst 0 0)
        (s3c_onenand_wait uboot (hwConst 0 0) uboot.FL_LOCKING
          (afterRangeWrites .S3C64XX
            { idle2k with
              chip := { idle2k.chip with subpagesize := idle2k.mtd.writesize }
              mtd := { idle2k.mtd with subpage_sft := 0 } }
            0 ONENAND_UNLOCK_START
            ((idle2k.chip.chipsize >>> idle2k.chip.erase_shift) - 1) ONENAND_UNLOCK_END)).2 ∧
      ahbWrites r.trace = ahbWrites idle2k.trace ++
        [(CMD_MAP_10 .S3C64XX (s3c_mem_addr .S3C64XX 0 0 0), 0x08),
          (CMD_MAP_10 .S3C64XX (s3c_mem_addr .S3C64XX
            ((idle2k.chip.chipsize >>> idle2k.chip.erase_shift) - 1) 0 0), 0x09)] ∧
      ahbReads r.trace = ahbReads idle2k.trace ++
        (List.range (idle2k.chip.chipsize >>> idle2k.chip.erase_shift)).map
          (fun b => CMD_MAP_01 .S3C64XX (s3c_mem_addr .S3C64XX b 0 0)) :=
  s3c_onenand_unlock_all_fallback uboot .S3C64XX (hwConst 0 0) idle2k
    (by decide) (by decide) (by decide)

/-! ### The bad-block-table waiter and the reset sequence -/

theorem memResets_append (l₁ l₂ : List Event) :
    memResets (l₁ ++ l₂) = memResets l₁ ++ memResets l₂ := by
  simp [memResets, List.filterMap_append]

theorem memResets_reads (l : List Event)
    (h : ∀ e ∈ l, ∃ x, e = Event.rd (.reg .int_err_stat) x) : memResets l = [] := by
  induction l with
  | nil => rfl
  | cons e l ih =>
    obtain ⟨x, hx⟩ := h e (List.mem_cons_self _ _)
    have ih' := ih fun e' he' => h e' (List.mem_cons_of_mem _ he')
    rw [hx]
    simpa [memResets] using ih'

theorem poll_memResets (hw : Hw) (flags n : Nat) (s : State) :
    memResets (poll hw flags n s).trace = memResets s.trace := by
  induction n generalizing s with
  | zero => rfl
  | succ n ih =>
    simp only [poll, readl]
    split
    · simp [memResets_append, memResets]
    · rw [ih]
      simp [memResets_append, memResets]

/-- The polling loop of `s3c_onenand_reset` only reads the status register and
changes nothing but the trace. -/
theorem s3c_onenand_reset_loop_spec (k : Hdr) (hw : Hw) (n : Nat) (s : State) :
    ∃ reads, s3c_onenand_reset_loop k hw n s = { s with trace := s.trace ++ reads } ∧
      ∀ e ∈ reads, ∃ x, e = Event.rd (.reg .int_err_stat) x := by
  induction n generalizing s with
  | zero => exact ⟨[], by simp [s3c_onenand_reset_loop], by simp⟩
  | succ n ih =>
    simp only [s3c_onenand_reset_loop, readl]
    split
    · exact ⟨[Event.rd (.reg .int_err_stat) (u32 (hw.dev s.trace (.reg .int_err_stat)))], rfl,
        by simp⟩
    · obtain ⟨reads, h1, h2⟩ := ih { s with trace := s.trace ++
        [Event.rd (.reg .int_err_stat) (u32 (hw.dev s.trace (.reg .int_err_stat)))] }
      refine ⟨Event.rd (.reg .int_err_stat) (u32 (hw.dev s.trace (.reg .int_err_stat))) :: reads,
        ?_, ?_⟩
      · rw [h1]
        simp
      · intro e he
        rcases List.mem_cons.mp he with he | he
        · exact ⟨_, he⟩
        · exact h2 e he

/-- The reset sequence `s3c_onenand_reset`: the cold-reset command is written
to `mem_reset`, the status is polled, re-read and acknowledged, and last the
interrupt acknowledge and the ECC status are cleared to 0; nothing but the trace
changes. -/
theorem s3c_onenand_reset_spec (k : Hdr) (hw : Hw) (s : State) :
    ∃ reads v, s3c_onenand_reset k hw s = { s with trace := s.trace ++
        [Event.wr (.reg .mem_reset) (u32 k.ONENAND_MEM_RESET_COLD)] ++ reads ++
        [Event.rd (.reg .int_err_stat) v, Event.wr (.reg .int_err_ack) v,
          Event.wr (.reg .int_err_ack) 0, Event.wr (.reg .ecc_err_stat) 0] } ∧
      ∀ e ∈ reads, ∃ x, e = Event.rd (.reg .int_err_stat) x := by
  obtain ⟨reads, h1, h2⟩ := s3c_onenand_reset_loop_spec k hw 0x10000
    (writel k.ONENAND_MEM_RESET_COLD (.reg .mem_reset) s)
  refine ⟨reads, u32 (hw.dev (s.trace ++
    [Event.wr (.reg .mem_reset) (u32 k.ONENAND_MEM_RESET_COLD)] ++ reads) (.reg .int_err_stat)),
    ?_, h2⟩
  simp only [s3c_onenand_reset, h1]
  simp [readl, writel, u32_u32]
  rfl

/-- Unfolding of `s3c_onenand_bbt_wait` in terms of the status and ECC values it
reads. -/
theorem s3c_onenand_bbt_wait_eq (k : Hdr) (hw : Hw) (state : Nat) (s : State) :
    s3c_onenand_bbt_wait k hw state s =
      if bbtStat k hw s &&& k.LD_FAIL_ECC_ERR ≠ 0 then
        (( k.ONENAND_BBT_READ_ERROR : Int),
          s3c_onenand_reset k hw { s with trace := bbtAcked k hw s })
      else if bbtStat k hw s &&& k.LOAD_CMP ≠ 0 then
        if bbtEcc k hw s &&& k.ONENAND_ECC_4BIT_UNCORRECTABLE ≠ 0 then
          (( k.ONENAND_BBT_READ_ERROR : Int),
            s3c_onenand_reset k hw { s with trace := bbtAcked k hw s ++
              [Event.rd (.reg .ecc_err_stat) (bbtEcc k hw s)] })
        else
          (0, { s with trace := bbtAcked k hw s ++
              [Event.rd (.reg .ecc_err_stat) (bbtEcc k hw s)] })
      else (0, { s with trace := bbtAcked k hw s }) := by
  obtain ⟨T, hT⟩ : ∃ T, poll hw (k.INT_ACT ||| k.LOAD_CMP) (hw.polls s.trace) s
      = { s with trace := T } := ⟨_, poll_eq _ _ _ _⟩
  simp only [s3c_onenand_bbt_wait, bbtStat, bbtAcked, bbtEcc, readl, writel, u32_u32, hT,
    List.append_assoc, List.singleton_append, List.cons_append, List.nil_append]

theorem bbtAcked_memResets (k : Hdr) (hw : Hw) (s : State) :
    memResets (bbtAcked k hw s) = memResets s.trace := by
  rw [bbtAcked, memResets_append, poll_memResets]
  simp [memResets]

/-- The reset commands found in the trace after `s3c_onenand_reset`: one more,
the cold reset. -/
theorem s3c_onenand_reset_memResets (k : Hdr) (hw : Hw) (s : State) :
    memResets (s3c_onenand_reset k hw s).trace
      = memResets s.trace ++ [u32 k.ONENAND_MEM_RESET_COLD] := by
  obtain ⟨reads, v, h1, h2⟩ := s3c_onenand_reset_spec k hw s
  rw [h1]
  simp only [memResets_append, memResets_reads reads h2, List.append_nil]
  simp [memResets]

/-- C11: `s3c_onenand_bbt_wait` returns `ONENAND_BBT_READ_ERROR` (a non-zero
code) exactly when the status value re-read after its polling loop has
`LD_FAIL_ECC_ERR` set, or has `LOAD_CMP` set while the ECC status register has an
uncorrectable 4-bit error bit; in exactly those cases it runs the reset sequence
before returning: one cold-reset command written to `mem_reset`, the status
polled, re-read and acknowledged, then the interrupt acknowledge and the ECC
status cleared to 0; in every other case it returns 0, writes nothing to
`mem_reset`, and its accesses end with the acknowledge of the status and, when
`LOAD_CMP` is set, the read of the ECC status. -/
theorem s3c_onenand_bbt_wait_result (k : Hdr) (hw : Hw) (state : Nat) (s : State)
    (hne : k.ONENAND_BBT_READ_ERROR ≠ 0) :
    ((s3c_onenand_bbt_wait k hw state s).1 = ( k.ONENAND_BBT_READ_ERROR : Int) ↔
      (bbtStat k hw s &&& k.LD_FAIL_ECC_ERR ≠ 0 ∨
        (bbtStat k hw s &&& k.LOAD_CMP ≠ 0 ∧
          bbtEcc k hw s &&& k.ONENAND_ECC_4BIT_UNCORRECTABLE ≠ 0))) ∧
    (s3c_onenand_bbt_wait k hw state s).1 =
      (if bbtStat k hw s &&& k.LD_FAIL_ECC_ERR ≠ 0 ∨
          (bbtStat k hw s &&& k.LOAD_CMP ≠ 0 ∧
            bbtEcc k hw s &&& k.ONENAND_ECC_4BIT_UNCORRECTABLE ≠ 0) then
        ( k.ONENAND_BBT_READ_ERROR : Int)
      else 0) ∧
    memResets (s3c_onenand_bbt_wait k hw state s).2.trace =
      memResets s.trace ++
        (if bbtStat k hw s &&& k.LD_FAIL_ECC_ERR ≠ 0 ∨
            (bbtStat k hw s &&& k.LOAD_CMP ≠ 0 ∧
              bbtEcc k hw s &&& k.ONENAND_ECC_4BIT_UNCORRECTABLE ≠ 0) then
          [u32 k.ONENAND_MEM_RESET_COLD]
        else []) ∧
    (if bbtStat k hw s &&& k.LD_FAIL_ECC_ERR ≠ 0 ∨
        (bbtStat k hw s &&& k.LOAD_CMP ≠ 0 ∧
          bbtEcc k hw s &&& k.ONENAND_ECC_4BIT_UNCORRECTABLE ≠ 0) then
      ∃ reads v, (s3c_onenand_bbt_wait k hw state s).2.trace =
          bbtAcked k hw s ++
            (if bbtStat k hw s &&& k.LD_FAIL_ECC_ERR ≠ 0 then []
              else [Event.rd (.reg .ecc_err_stat) (bbtEcc k hw s)]) ++
            [Event.wr (.reg .mem_reset) (u32 k.ONENAND_MEM_RESET_COLD)] ++ reads ++
            [Event.rd (.reg .int_err_stat) v, Event.wr (.reg .int_err_ack) v,
              Event.wr (.reg .int_err_ack) 0, Event.wr (.reg .ecc_err_stat) 0] ∧
        ∀ e ∈ reads, ∃ x, e = Event.rd (.reg .int_err_stat) x
    else
      (s3c_onenand_bbt_wait k hw state s).2.trace =
        bbtAcked k hw s ++
          (if bbtStat k hw s &&& k.LOAD_CMP ≠ 0 then
            [Event.rd (.reg .ecc_err_stat) (bbtEcc k hw s)]
          else [])) := by
  have hz : ( k.ONENAND_BBT_READ_ERROR : Int) ≠ 0 := by omega
  rw [s3c_onenand_bbt_wait_eq]
  by_cases h1 : bbtStat k hw s &&& k.LD_FAIL_ECC_ERR ≠ 0
  · have hE : bbtStat k hw s &&& k.LD_FAIL_ECC_ERR ≠ 0 ∨
        (bbtStat k hw s &&& k.LOAD_CMP ≠ 0 ∧
          bbtEcc k hw s &&& k.ONENAND_ECC_4BIT_UNCORRECTABLE ≠ 0) := Or.inl h1
    simp only [if_pos h1, if_pos hE]
    refine ⟨⟨fun _ => hE, fun _ => by first | rfl | trivial⟩, by first | rfl | trivial, ?_, ?_⟩
    · rw [s3c_onenand_reset_memResets]
      show memResets (bbtAcked k hw s) ++ _ = _
      rw [bbtAcked_memResets]
    · obtain ⟨reads, v, e1, e2⟩ := s3c_onenand_reset_spec k hw
        { s with trace := bbtAcked k hw s }
      refine ⟨reads, v, ?_, e2⟩
      rw [e1]
      simp
  · by_cases h2 : bbtStat k hw s &&& k.LOAD_CMP ≠ 0
    · by_cases h3 : bbtEcc k hw s &&& k.ONENAND_ECC_4BIT_UNCORRECTABLE ≠ 0
      · have hE : bbtStat k hw s &&& k.LD_FAIL_ECC_ERR ≠ 0 ∨
            (bbtStat k hw s &&& k.LOAD_CMP ≠ 0 ∧
              bbtEcc k hw s &&& k.ONENAND_ECC_4BIT_UNCORRECTABLE ≠ 0) := Or.inr ⟨h2, h3⟩
        simp only [if_neg h1, if_pos h2, if_pos h3, if_pos hE]
        refine ⟨⟨fun _ => hE, fun _ => by first | rfl | trivial⟩, by first | rfl | trivial, ?_, ?_⟩
        · rw [s3c_onenand_reset_memResets]
          show memResets (bbtAcked k hw s ++ _) ++ _ = _
          rw [memResets_append, bbtAcked_memResets]
          simp [memResets]
        · obtain ⟨reads, v, e1, e2⟩ := s3c_onenand_reset_spec k hw
            { s with trace := bbtAcked k hw s ++
              [Event.rd (.reg .ecc_err_stat) (bbtEcc k hw s)] }
          refine ⟨reads, v, ?_, e2⟩
          rw [e1]
      · have hE : ¬ (bbtStat k hw s &&& k.LD_FAIL_ECC_ERR ≠ 0 ∨
            (bbtStat k hw s &&& k.LOAD_CMP ≠ 0 ∧
              bbtEcc k hw s &&& k.ONENAND_ECC_4BIT_UNCORRECTABLE ≠ 0)) := by
          rintro (h | ⟨_, h⟩)
          · exact h1 h
          · exact h3 h
        simp only [if_neg h1, if_pos h2, if_neg h3, if_neg hE]
        refine ⟨⟨fun h => absurd h.symm hz, fun h => absurd h hE⟩, by first | rfl | trivial, ?_,
          by first | rfl | trivial⟩
        show memResets (bbtAcked k hw s ++ _) = _
        rw [memResets_append, bbtAcked_memResets]
        simp [memResets]
    · have hE : ¬ (bbtStat k hw s &&& k.LD_FAIL_ECC_ERR ≠ 0 ∨
          (bbtStat k hw s &&& k.LOAD_CMP ≠ 0 ∧
            bbtEcc k hw s &&& k.ONENAND_ECC_4BIT_UNCORRECTABLE ≠ 0)) := by
        rintro (h | ⟨h, _⟩)
        · exact h1 h
        · exact h2 h
      simp only [if_neg h1, if_neg h2, if_neg hE]
      refine ⟨⟨fun h => absurd h.symm hz, fun h => absurd h hE⟩, by first | rfl | trivial, ?_, ?_⟩
      · show memResets (bbtAcked k hw s) = _
        rw [bbtAcked_memResets]
        simp
      · simp

/-- Witness for C11: a bad-block-table wait on a controller whose status register
reads `LD_FAIL_ECC_ERR`, with the constants of the U-Boot headers, where
`ONENAND_BBT_READ_ERROR` is 1. -/
theorem s3c_onenand_bbt_wait_result_witness :
    ((s3c_onenand_bbt_wait uboot (hwConst 0x1 0) uboot.FL_READING idle2k).1 = ( uboot.ONENAND_BBT_READ_ERROR : Int) ↔
      (bbtStat uboot (hwConst 0x1 0) idle2k &&& uboot.LD_FAIL_ECC_ERR ≠ 0 ∨
        (bbtStat uboot (hwConst 0x1 0) idle2k &&& uboot.LOAD_CMP ≠ 0 ∧
          bbtEcc uboot (hwConst 0x1 0) idle2k &&& uboot.ONENAND_ECC_4BIT_UNCORRECTABLE ≠ 0))) ∧
    (s3c_onenand_bbt_wait uboot (hwConst 0x1 0) uboot.FL_READING idle2k).1 =
      (if bbtStat uboot (hwConst 0x1 0) idle2k &&& uboot.LD_FAIL_ECC_ERR ≠ 0 ∨
          (bbtStat uboot (hwConst 0x1 0) idle2k &&& uboot.LOAD_CMP ≠ 0 ∧
            bbtEcc uboot (hwConst 0x1 0) idle2k &&& uboot.ONENAND_ECC_4BIT_UNCORRECTABLE ≠ 0) then
        ( uboot.ONENAND_BBT_READ_ERROR : Int)
      else 0) ∧
    memResets (s3c_onenand_bbt_wait uboot (hwConst 0x1 0) uboot.FL_READING idle2k).2.trace =
      memResets idle2k.trace ++
        (if bbtStat uboot (hwConst 0x1 0) idle2k &&& uboot.LD_FAIL_ECC_ERR ≠ 0 ∨
            (bbtStat uboot (hwConst 0x1 0) idle2k &&& uboot.LOAD_CMP ≠ 0 ∧
              bbtEcc uboot (hwConst 0x1 0) idle2k &&& uboot.ONENAND_ECC_4BIT_UNCORRECTABLE ≠ 0) then
          [u32 uboot.ONENAND_MEM_RESET_COLD]
        else []) ∧
    (if bbtStat uboot (hwConst 0x1 0) idle2k &&& uboot.LD_FAIL_ECC_ERR ≠ 0 ∨
        (bbtStat uboot (hwConst 0x1 0) idle2k &&& uboot.LOAD_CMP ≠ 0 ∧
          bbtEcc uboot (hwConst 0x1 0) idle2k &&& uboot.ONENAND_ECC_4BIT_UNCORRECTABLE ≠ 0) then
      ∃ reads v, (s3c_onenand_bbt_wait uboot (hwConst 0x1 0) uboot.FL_READING idle2k).2.trace =
          bbtAcked uboot (hwConst 0x1 0) idle2k ++
            (if bbtStat uboot (hwConst 0x1 0) idle2k &&& uboot.LD_FAIL_ECC_ERR ≠ 0 then []
              else [Event.rd (.reg .ecc_err_stat) (bbtEcc uboot (hwConst 0x1 0) idle2k)]) ++
            [Event.wr (.reg .mem_reset) (u32 uboot.ONENAND_MEM_RESET_COLD)] ++ reads ++
            [Event.rd (.reg .int_err_stat) v, Event.wr (.reg .int_err_ack) v,
              Event.wr (.reg .int_err_ack) 0, Event.wr (.reg .ecc_err_stat) 0] ∧
        ∀ e ∈ reads, ∃ x, e = Event.rd (.reg .int_err_stat) x
    else
      (s3c_onenand_bbt_wait uboot (hwConst 0x1 0) uboot.FL_READING idle2k).2.trace =
        bbtAcked uboot (hwConst 0x1 0) idle2k ++
          (if bbtStat uboot (hwConst 0x1 0) idle2k &&& uboot.LOAD_CMP ≠ 0 then
            [Event.rd (.reg .ecc_err_stat) (bbtEcc uboot (hwConst 0x1 0) idle2k)]
          else [])) :=
  s3c_onenand_bbt_wait_result uboot (hwConst 0x1 0) uboot.FL_READING idle2k (by decide)

end Samsung
